import Mathlib

/-!
Verification development for the gdpr-pii-scanner repository.

The Rust sources are shallowly embedded: Rust strings are modelled as
List Char (with explicit UTF-8 byte lengths where the code does byte
slicing), machine integers as Nat/Int, fallible operations as Option,
and the stateful scan pipeline as explicit state passing.  Definitions
follow the corresponding Rust functions (src/utils/checksum.rs,
src/utils/masking.rs, src/core/types.rs, src/core/context.rs,
src/scanner/engine.rs, src/detectors/...), keeping their names.
-/

set_option maxRecDepth 20000

namespace Pii

/-- Character-to-digit extraction shared by the checksum validators:
each of them runs chars().filter(is_ascii_digit).filter_map(to_digit(10)).
Char.isDigit is the ASCII digit test, and to_digit(10) on an ASCII digit
always succeeds, so the filter_map is a plain map. -/
def digitsOf (s : List Char) : List Nat :=
  (s.filter Char.isDigit).map (fun c => c.toNat - 48)

/-- Embedding of validate_bsn_11_proef (src/utils/checksum.rs).
Nine digits, first digit nonzero, weighted sum with weights
[9,8,7,6,5,4,3,2,-1] divisible by 11 (Rust % on i32 is tmod). -/
def validate_bsn_11_proef (bsn : List Char) : Bool :=
  let digits := digitsOf bsn
  if digits.length ≠ 9 then false
  else if digits.headD 0 = 0 then false
  else
    let weights : List Int := [9, 8, 7, 6, 5, 4, 3, 2, -1]
    let sum : Int := ((digits.map (fun d => (d : Int))).zip weights).foldl
      (fun acc p => acc + p.1 * p.2) 0
    Int.tmod sum 11 = 0

/-- Luhn sum helper: the enumerate-over-reversed-digits loop of
validate_luhn, doubling every second digit from the right and
subtracting 9 from doubled values above 9. -/
def luhnAux : Nat → List Nat → Nat
  | _, [] => 0
  | i, d :: rest =>
    (if i % 2 = 1 then (if d * 2 > 9 then d * 2 - 9 else d * 2) else d) +
      luhnAux (i + 1) rest

/-- Embedding of validate_luhn (src/utils/checksum.rs):
13..=19 digits, standard mod-10 Luhn check. -/
def validate_luhn (number : List Char) : Bool :=
  let digits := digitsOf number
  if digits.length < 13 ∨ digits.length > 19 then false
  else luhnAux 0 digits.reverse % 10 = 0

/-- Embedding of validate_nhs_number (src/utils/checksum.rs):
10 digits, weights [10,...,2] over the first 9, check digit
11 - (sum mod 11) with 11 mapped to 0 and 10 invalid. -/
def validate_nhs_number (nhs : List Char) : Bool :=
  let digits := digitsOf nhs
  if digits.length ≠ 10 then false
  else
    let weights : List Nat := [10, 9, 8, 7, 6, 5, 4, 3, 2]
    let sum : Nat := ((digits.take 9).zip weights).foldl (fun acc p => acc + p.1 * p.2) 0
    let r : Nat := sum % 11
    if 11 - r = 11 then digits.getD 9 0 = 0
    else if 11 - r = 10 then false
    else digits.getD 9 0 = 11 - r

theorem digitsOf_congr {s t : List Char}
    (h : s.filter Char.isDigit = t.filter Char.isDigit) :
    digitsOf s = digitsOf t := by
  unfold digitsOf
  rw [h]

/-- Claim C10: the digit-based checksum validators (Luhn, BSN 11-proef,
NHS) depend only on the subsequence of ASCII digit characters of their
input: any two inputs with the same digit subsequence (i.e. differing
only by insertion or removal of non-digit characters) get the same
boolean verdict from each validator. -/
theorem c10_checksum_digit_invariance (s t : List Char)
    (h : s.filter Char.isDigit = t.filter Char.isDigit) :
    validate_bsn_11_proef s = validate_bsn_11_proef t ∧
    validate_luhn s = validate_luhn t ∧
    validate_nhs_number s = validate_nhs_number t := by
  have hd : digitsOf s = digitsOf t := digitsOf_congr h
  refine ⟨?_, ?_, ?_⟩
  · unfold validate_bsn_11_proef
    rw [hd]
  · unfold validate_luhn
    rw [hd]
  · unfold validate_nhs_number
    rw [hd]

/-- Witness for C10: a BSN with letters and separators inserted has the
same digit subsequence as the bare digit string, and the theorem yields
equal validator verdicts there. -/
theorem c10_checksum_digit_invariance_witness :
    ("1x1-1 222@333".data.filter Char.isDigit =
      "111222333".data.filter Char.isDigit) ∧
    validate_bsn_11_proef "1x1-1 222@333".data =
      validate_bsn_11_proef "111222333".data :=
  ⟨by decide, (c10_checksum_digit_invariance _ _ (by decide)).1⟩

/-! Section: Core result types (src/core/types.rs) -/

/-- Embedding of the Confidence enum; Rust derives Ord by declaration
order Low < Medium < High. -/
inductive Confidence where
  | low
  | medium
  | high
deriving DecidableEq

/-- Numeric rank realizing the derived order Low < Medium < High. -/
def Confidence.level : Confidence → Nat
  | .low => 0
  | .medium => 1
  | .high => 2

/-- Embedding of the Severity enum, ordered Low < Medium < High < Critical. -/
inductive Severity where
  | low
  | medium
  | high
  | critical
deriving DecidableEq

/-- Embedding of the SpecialCategory enum (GDPR Art. 9/10 categories). -/
inductive SpecialCategory where
  | medical
  | biometric
  | genetic
  | criminal
  | racialEthnic
  | political
  | religious
  | tradeUnion
  | sexual
deriving DecidableEq

/-- Embedding of GdprCategory: Regular, or Special with category and
triggering keywords. -/
inductive GdprCategory where
  | regular
  | special (category : SpecialCategory) (detected_keywords : List String)
deriving DecidableEq

/-- Embedding of ContextInfo (src/core/types.rs). -/
structure ContextInfo where
  before : List Char
  after : List Char
  keywords : List String
  category : Option SpecialCategory
deriving DecidableEq

/-- Embedding of Location (src/core/types.rs); file_path is a plain string. -/
structure Location where
  file_path : String
  line : Nat
  column : Nat
  start_byte : Nat
  end_byte : Nat
deriving DecidableEq

/-- Embedding of Match (src/core/types.rs).  value_masked is an Option:
none models the byte-slicing panic possible in mask_value, which the
detectors never hit because they pass all-ASCII digit strings. -/
structure Match where
  detector_id : String
  detector_name : String
  country : String
  value_masked : Option (List Char)
  location : Location
  confidence : Confidence
  severity : Severity
  context : Option ContextInfo
  gdpr_category : GdprCategory
deriving DecidableEq

/-- Embedding of FileResult (src/core/types.rs). -/
structure FileResult where
  path : String
  matches_ : List Match
  size_bytes : Nat
  scan_time_ms : Nat
  error : Option String
deriving DecidableEq

/-- Embedding of SeverityCounts (src/core/types.rs). -/
structure SeverityCounts where
  low : Nat
  medium : Nat
  high : Nat
  critical : Nat
deriving DecidableEq

/-- Embedding of ScanResults (src/core/types.rs); the by_country HashMap
is modelled as an association list with the entry-or-insert update. -/
structure ScanResults where
  files : List FileResult
  total_files : Nat
  total_bytes : Nat
  total_time_ms : Nat
  total_matches : Nat
  by_severity : SeverityCounts
  by_country : List (String × Nat)
  extracted_files : Nat
  extraction_failures : Nat
deriving DecidableEq

/-- Model of by_country.entry(country).or_insert(0) += 1: increment the
entry if present, else insert it with count 1. -/
def bumpCountry (m : List (String × Nat)) (k : String) : List (String × Nat) :=
  match m with
  | [] => [(k, 1)]
  | (k2, v) :: rest =>
    if k2 = k then (k2, v + 1) :: rest else (k2, v) :: bumpCountry rest k

/-- One step of the aggregation loop body over a single match:
bump the severity histogram and the country histogram. -/
def tallyMatch (acc : SeverityCounts × List (String × Nat)) (m : Match) :
    SeverityCounts × List (String × Nat) :=
  let bs :=
    match m.severity with
    | .low => { acc.1 with low := acc.1.low + 1 }
    | .medium => { acc.1 with medium := acc.1.medium + 1 }
    | .high => { acc.1 with high := acc.1.high + 1 }
    | .critical => { acc.1 with critical := acc.1.critical + 1 }
  (bs, bumpCountry acc.2 m.country)

/-- Embedding of ScanResults::aggregate (src/core/types.rs lines 296-329):
totals are sums over the files, the histograms are accumulated by the
nested loop, and extracted_files / extraction_failures are set to 0
(the comment in the source defers them to scan_directory). -/
def ScanResults.aggregate (files : List FileResult) : ScanResults :=
  let total_files := files.length
  let total_bytes := (files.map (fun f => f.size_bytes)).sum
  let total_time_ms := (files.map (fun f => f.scan_time_ms)).sum
  let total_matches := (files.map (fun f => f.matches_.length)).sum
  let tallied := files.foldl (fun acc f => f.matches_.foldl tallyMatch acc)
    (⟨0, 0, 0, 0⟩, [])
  { files := files
    total_files := total_files
    total_bytes := total_bytes
    total_time_ms := total_time_ms
    total_matches := total_matches
    by_severity := tallied.1
    by_country := tallied.2
    extracted_files := 0
    extraction_failures := 0 }

/-- Embedding of ScanResults::filter_by_confidence (src/core/types.rs
lines 347-360): retain matches_ with confidence >= min_confidence in each
file, then re-aggregate. -/
def ScanResults.filter_by_confidence (r : ScanResults) (min_confidence : Confidence) :
    ScanResults :=
  let filtered_files := r.files.map (fun f =>
    { f with matches_ :=
        f.matches_.filter (fun m => min_confidence.level ≤ m.confidence.level) })
  ScanResults.aggregate filtered_files

/-- Total of a severity histogram. -/
def SeverityCounts.total (s : SeverityCounts) : Nat :=
  s.low + s.medium + s.high + s.critical

/-- Sum of all counts of the by_country histogram. -/
def countrySum (m : List (String × Nat)) : Nat :=
  (m.map Prod.snd).sum

theorem countrySum_bumpCountry (m : List (String × Nat)) (k : String) :
    countrySum (bumpCountry m k) = countrySum m + 1 := by
  induction m with
  | nil => simp [bumpCountry, countrySum]
  | cons hd tl ih =>
    obtain ⟨k2, v⟩ := hd
    by_cases h : k2 = k
    · simp [bumpCountry, h, countrySum]
      omega
    · simp [bumpCountry, h, countrySum] at ih ⊢
      omega

theorem tallyMatch_total (acc : SeverityCounts × List (String × Nat)) (m : Match) :
    (tallyMatch acc m).1.total = acc.1.total + 1 ∧
    countrySum (tallyMatch acc m).2 = countrySum acc.2 + 1 := by
  constructor
  · cases h : m.severity <;>
      simp [tallyMatch, h, SeverityCounts.total] <;> omega
  · cases h : m.severity <;>
      simp [tallyMatch, h, countrySum_bumpCountry]

theorem foldl_tallyMatch_total (ms : List Match)
    (acc : SeverityCounts × List (String × Nat)) :
    (ms.foldl tallyMatch acc).1.total = acc.1.total + ms.length ∧
    countrySum (ms.foldl tallyMatch acc).2 = countrySum acc.2 + ms.length := by
  induction ms generalizing acc with
  | nil => simp
  | cons hd tl ih =>
    have h1 := tallyMatch_total acc hd
    have h2 := ih (tallyMatch acc hd)
    simp only [List.foldl_cons, List.length_cons]
    omega

theorem foldl_files_total (files : List FileResult)
    (acc : SeverityCounts × List (String × Nat)) :
    (files.foldl (fun acc f => f.matches_.foldl tallyMatch acc) acc).1.total =
      acc.1.total + (files.map (fun f => f.matches_.length)).sum ∧
    countrySum (files.foldl (fun acc f => f.matches_.foldl tallyMatch acc) acc).2 =
      countrySum acc.2 + (files.map (fun f => f.matches_.length)).sum := by
  induction files generalizing acc with
  | nil => simp
  | cons hd tl ih =>
    have h1 := foldl_tallyMatch_total hd.matches_ acc
    have h2 := ih (hd.matches_.foldl tallyMatch acc)
    simp only [List.foldl_cons, List.map_cons, List.sum_cons]
    omega

/-- Claim C4: aggregation produces exact histograms: total_matches is the
sum over files of the number of matches_, the severity counts sum to
total_matches, and the country counts sum to total_matches. -/
theorem c4_aggregate_histograms (files : List FileResult) :
    (ScanResults.aggregate files).total_matches =
      (files.map (fun f => f.matches_.length)).sum ∧
    (ScanResults.aggregate files).by_severity.low +
      (ScanResults.aggregate files).by_severity.medium +
      (ScanResults.aggregate files).by_severity.high +
      (ScanResults.aggregate files).by_severity.critical =
      (ScanResults.aggregate files).total_matches ∧
    countrySum (ScanResults.aggregate files).by_country =
      (ScanResults.aggregate files).total_matches := by
  have h := foldl_files_total files (⟨0, 0, 0, 0⟩, [])
  refine ⟨rfl, ?_, ?_⟩
  · have := h.1
    simp [SeverityCounts.total, ScanResults.aggregate] at this ⊢
    omega
  · have := h.2
    simp [countrySum, ScanResults.aggregate] at this ⊢
    omega

/-- Concrete file used to exhibit the C3 failure: no matches, nonzero
size and scan time. -/
def c3CxFile : FileResult :=
  { path := "a.txt", matches_ := [], size_bytes := 7, scan_time_ms := 5,
    error := none }

/-- Concrete ScanResults as scan_directory would produce it: wall-clock
total_time_ms (999, not the 5 ms sum of per-file times) and the atomic
counters copied into extracted_files and extraction_failures. -/
def c3CxResults : ScanResults :=
  { files := [c3CxFile], total_files := 1, total_bytes := 7,
    total_time_ms := 999, total_matches := 0,
    by_severity := ⟨0, 0, 0, 0⟩, by_country := [],
    extracted_files := 1, extraction_failures := 1 }

/-- Counterexample to claim C3: filter_by_confidence re-aggregates, and
aggregate resets extracted_files and extraction_failures to 0 and
recomputes total_time_ms as the sum of per-file scan times, so none of
the three is preserved on this concrete ScanResults. -/
theorem c3_claim_false :
    ¬ ((c3CxResults.filter_by_confidence .low).extracted_files =
        c3CxResults.extracted_files ∧
      (c3CxResults.filter_by_confidence .low).extraction_failures =
        c3CxResults.extraction_failures ∧
      (c3CxResults.filter_by_confidence .low).total_time_ms =
        c3CxResults.total_time_ms) := by
  decide

/-- Claim C3 as amended: filter_by_confidence keeps the same files with
exactly the matches of confidence >= c; total_files and total_bytes are
recomputed from the files, hence unchanged whenever the input totals are
consistent with its files (as aggregate guarantees); total_time_ms is
recomputed as the sum of per-file scan times; extracted_files and
extraction_failures are reset to 0, not preserved. -/
theorem c3_filter_frame_amended (r : ScanResults) (c : Confidence)
    (hf : r.total_files = r.files.length)
    (hb : r.total_bytes = (r.files.map (fun f => f.size_bytes)).sum) :
    (r.filter_by_confidence c).files = r.files.map (fun f =>
      { f with matches_ :=
          f.matches_.filter (fun m => c.level ≤ m.confidence.level) }) ∧
    (r.filter_by_confidence c).total_files = r.total_files ∧
    (r.filter_by_confidence c).total_bytes = r.total_bytes ∧
    (r.filter_by_confidence c).total_time_ms =
      (r.files.map (fun f => f.scan_time_ms)).sum ∧
    (r.filter_by_confidence c).extracted_files = 0 ∧
    (r.filter_by_confidence c).extraction_failures = 0 := by
  refine ⟨rfl, ?_, ?_, ?_, rfl, rfl⟩
  · simp [ScanResults.filter_by_confidence, ScanResults.aggregate, hf]
  · simp only [ScanResults.filter_by_confidence, ScanResults.aggregate,
      List.map_map, hb]
    rfl
  · simp only [ScanResults.filter_by_confidence, ScanResults.aggregate,
      List.map_map]
    rfl

/-- Aggregate of the concrete file, used as a consistent input for the
C3 witness. -/
def c3WitnessResults : ScanResults := ScanResults.aggregate [c3CxFile]

/-- Witness for the amended C3 theorem at a concrete consistent
ScanResults. -/
theorem c3_filter_frame_amended_witness :
    (c3WitnessResults.total_files = c3WitnessResults.files.length ∧
      c3WitnessResults.total_bytes =
        (c3WitnessResults.files.map (fun f => f.size_bytes)).sum) ∧
    (c3WitnessResults.filter_by_confidence .low).total_files =
      c3WitnessResults.total_files :=
  ⟨⟨by decide, by decide⟩,
    (c3_filter_frame_amended c3WitnessResults .low (by decide) (by decide)).2.1⟩

/-! Section: Masking utilities (src/utils/masking.rs)

Rust str::len and str slicing count UTF-8 bytes; slicing at an index
that is not a character boundary panics.  The model keeps the byte
counts explicit: utf8Len is the byte length of a character list, and
takeBytes / dropBytes return none exactly when the requested byte index
is beyond the end or falls inside a multi-byte character (the panic). -/

/-- Byte length of a string, summing per-character UTF-8 sizes. -/
def utf8Len (s : List Char) : Nat :=
  (s.map Char.utf8Size).sum

/-- Model of the Rust slice value[..n]: the characters making up the
first n bytes, or none when n is not a character boundary (panic). -/
def takeBytes : List Char → Nat → Option (List Char)
  | _, 0 => some []
  | [], _ + 1 => none
  | c :: cs, n + 1 =>
    if c.utf8Size ≤ n + 1 then (takeBytes cs (n + 1 - c.utf8Size)).map (c :: ·)
    else none

/-- Model of the Rust slice value[n..]: the characters after the first
n bytes, or none when n is not a character boundary (panic). -/
def dropBytes : List Char → Nat → Option (List Char)
  | l, 0 => some l
  | [], _ + 1 => none
  | c :: cs, n + 1 =>
    if c.utf8Size ≤ n + 1 then dropBytes cs (n + 1 - c.utf8Size)
    else none

/-- Embedding of mask_value (src/utils/masking.rs lines 10-28): length
at most 5 bytes is fully starred; otherwise show min(3, len/3) leading
and min(2, len/4) trailing bytes around a starred middle.  none models
the slicing panic. -/
def mask_value (value : List Char) : Option (List Char) :=
  let len := utf8Len value
  if len ≤ 5 then some (List.replicate len '*')
  else
    let show_start := min 3 (len / 3)
    let show_end := min 2 (len / 4)
    let mask_len := len - show_start - show_end
    match takeBytes value show_start, dropBytes value (len - show_end) with
    | some a, some b => some (a ++ List.replicate mask_len '*' ++ b)
    | _, _ => none

/-- Embedding of mask_credit_card (src/utils/masking.rs lines 35-44):
strip to ASCII digits; fewer than 13 digits is fully starred, otherwise
star all but the last 4 digits. -/
def mask_credit_card (value : List Char) : Option (List Char) :=
  let digits := value.filter Char.isDigit
  let len := utf8Len digits
  if len < 13 then some (List.replicate len '*')
  else
    match dropBytes digits (len - 4) with
    | some last4 => some (List.replicate (len - 4) '*' ++ last4)
    | none => none

/-- Byte offset of the first occurrence of a character, as str::find
returns it, or none when absent. -/
def findByteIdx (s : List Char) (target : Char) : Option Nat :=
  match s with
  | [] => none
  | c :: cs =>
    if c = target then some 0
    else (findByteIdx cs target).map (fun n => c.utf8Size + n)

/-- Embedding of mask_email (src/utils/masking.rs lines 51-68): split at
the first at-sign, keep the first byte of the local part and the whole
domain; without an at-sign the whole input is starred. -/
def mask_email (email : List Char) : Option (List Char) :=
  match findByteIdx email '@' with
  | some at_pos =>
    match takeBytes email at_pos, dropBytes email at_pos with
    | some loc, some domain =>
      if loc.isEmpty then some email
      else
        let show_chars := min 1 (utf8Len loc)
        let mask_len := utf8Len loc - show_chars
        match takeBytes loc show_chars with
        | some l1 => some (l1 ++ List.replicate mask_len '*' ++ domain)
        | none => none
    | _, _ => none
  | none => some (List.replicate (utf8Len email) '*')

/-- Embedding of mask_iban (src/utils/masking.rs lines 75-88): strip
whitespace; fewer than 6 bytes is fully starred, otherwise keep the
2-byte country code and the last 4 bytes. -/
def mask_iban (iban : List Char) : Option (List Char) :=
  let clean := iban.filter (fun c => !c.isWhitespace)
  let len := utf8Len clean
  if len < 6 then some (List.replicate len '*')
  else
    match takeBytes clean 2, dropBytes clean (len - 4) with
    | some country, some last4 =>
      some (country ++ List.replicate (len - 6) '*' ++ last4)
    | _, _ => none

/-- Embedding of mask_phone (src/utils/masking.rs lines 95-116): keep
digits and any plus sign; fewer than 6 such characters is fully starred,
otherwise show 3 leading characters when the first is a plus (2
otherwise) and the last 3. -/
def mask_phone (phone : List Char) : Option (List Char) :=
  let digits := phone.filter (fun c => c.isDigit || c = '+')
  let len := utf8Len digits
  if len < 6 then some (List.replicate len '*')
  else
    let show_start := if digits.head? = some '+' then 3 else 2
    let show_end := 3
    let mask_len := len - show_start - show_end
    match takeBytes digits show_start, dropBytes digits (len - show_end) with
    | some a, some b => some (a ++ List.replicate mask_len '*' ++ b)
    | _, _ => none

/-- Counterexample to claim C5: mask_value is not total.  On the
three-character input of 2-byte characters the byte length is 6, the
trailing slice starts at byte 5 which is inside the third character, and
the Rust code panics (modelled as none). -/
theorem c5_claim_false :
    ¬ (∀ s : List Char, (mask_value s).isSome ∧ (mask_credit_card s).isSome ∧
      (mask_email s).isSome ∧ (mask_iban s).isSome ∧ (mask_phone s).isSome) := by
  intro h
  have hv : mask_value "ééé".data = none := by decide
  have := (h "ééé".data).1
  rw [hv] at this
  exact Bool.noConfusion this

theorem takeBytes_ascii (s : List Char) (hs : ∀ c ∈ s, c.utf8Size = 1)
    (n : Nat) (hn : n ≤ s.length) : (takeBytes s n).isSome := by
  induction s generalizing n with
  | nil =>
    have : n = 0 := Nat.le_zero.mp hn
    subst this
    simp [takeBytes]
  | cons c cs ih =>
    cases n with
    | zero => simp [takeBytes]
    | succ m =>
      have hc : c.utf8Size = 1 := hs c (by simp)
      have hrest : ∀ x ∈ cs, x.utf8Size = 1 := fun x hx => hs x (by simp [hx])
      have h2 := ih hrest m (by simpa using hn)
      simp only [takeBytes, hc]
      rw [if_pos (by omega)]
      simpa [Nat.add_sub_cancel] using h2

theorem dropBytes_ascii (s : List Char) (hs : ∀ c ∈ s, c.utf8Size = 1)
    (n : Nat) (hn : n ≤ s.length) : (dropBytes s n).isSome := by
  induction s generalizing n with
  | nil =>
    have : n = 0 := Nat.le_zero.mp hn
    subst this
    simp [dropBytes]
  | cons c cs ih =>
    cases n with
    | zero => simp [dropBytes]
    | succ m =>
      have hc : c.utf8Size = 1 := hs c (by simp)
      have hrest : ∀ x ∈ cs, x.utf8Size = 1 := fun x hx => hs x (by simp [hx])
      have h2 := ih hrest m (by simpa using hn)
      simp only [dropBytes, hc]
      rw [if_pos (by omega)]
      simpa [Nat.add_sub_cancel] using h2

theorem utf8Len_ascii (s : List Char) (hs : ∀ c ∈ s, c.utf8Size = 1) :
    utf8Len s = s.length := by
  induction s with
  | nil => simp [utf8Len]
  | cons c cs ih =>
    have hc := hs c (by simp)
    have h2 := ih (fun x hx => hs x (by simp [hx]))
    simp [utf8Len] at h2 ⊢
    omega

theorem utf8Size_of_isDigit (c : Char) (h : c.isDigit) : c.utf8Size = 1 := by
  simp [Char.isDigit] at h
  have h57 : c.val ≤ 57 := h.2
  have hle : c.val ≤ UInt32.ofNatCore 127 Char.utf8Size.proof_1 := by
    rw [UInt32.le_def] at h57 ⊢
    rw [BitVec.le_def] at h57 ⊢
    have e1 : ((UInt32.ofNatCore 127 Char.utf8Size.proof_1).toBitVec).toNat = 127 := rfl
    have e2 : ((57 : UInt32).toBitVec).toNat = 57 := rfl
    rw [e1]
    rw [e2] at h57
    omega
  show (if c.val ≤ UInt32.ofNatCore 127 Char.utf8Size.proof_1 then 1
    else if c.val ≤ UInt32.ofNatCore 2047 Char.utf8Size.proof_2 then 2
    else if c.val ≤ UInt32.ofNatCore 65535 Char.utf8Size.proof_3 then 3 else 4) = 1
  rw [if_pos hle]

theorem mem_of_takeBytes {s l : List Char} {n : Nat}
    (h : takeBytes s n = some l) : ∀ c ∈ l, c ∈ s := by
  induction s generalizing n l with
  | nil =>
    cases n with
    | zero =>
      simp [takeBytes] at h
      subst h
      simp
    | succ m => simp [takeBytes] at h
  | cons a as ih =>
    cases n with
    | zero =>
      simp [takeBytes] at h
      subst h
      simp
    | succ m =>
      simp only [takeBytes] at h
      by_cases hc : a.utf8Size ≤ m + 1
      · rw [if_pos hc] at h
        rcases Option.map_eq_some'.mp h with ⟨l2, hl2, hl⟩
        subst hl
        intro c hcmem
        rcases List.mem_cons.mp hcmem with h1 | h2
        · simp [h1]
        · exact List.mem_cons_of_mem a (ih hl2 c h2)
      · rw [if_neg hc] at h
        exact absurd h (by simp)

theorem findByteIdx_le (s : List Char) (t : Char) (n : Nat)
    (h : findByteIdx s t = some n) : n ≤ utf8Len s := by
  induction s generalizing n with
  | nil => simp [findByteIdx] at h
  | cons a as ih =>
    simp only [findByteIdx] at h
    by_cases hc : a = t
    · rw [if_pos hc] at h
      simp at h
      simp [utf8Len]
      omega
    · rw [if_neg hc] at h
      rcases Option.map_eq_some'.mp h with ⟨m, hm, hn⟩
      have := ih m hm
      simp [utf8Len] at this ⊢
      omega

theorem mask_value_isSome_ascii (s : List Char) (hs : ∀ c ∈ s, c.utf8Size = 1) :
    (mask_value s).isSome := by
  unfold mask_value
  have hlen := utf8Len_ascii s hs
  by_cases h : utf8Len s ≤ 5
  · simp [h]
  · rw [if_neg h]
    have h1 := takeBytes_ascii s hs (min 3 (utf8Len s / 3)) (by omega)
    have h2 := dropBytes_ascii s hs (utf8Len s - min 2 (utf8Len s / 4)) (by omega)
    rcases Option.isSome_iff_exists.mp h1 with ⟨a, ha⟩
    rcases Option.isSome_iff_exists.mp h2 with ⟨b, hb⟩
    simp [ha, hb]

theorem mask_credit_card_isSome (s : List Char) : (mask_credit_card s).isSome := by
  unfold mask_credit_card
  have hd : ∀ c ∈ s.filter Char.isDigit, c.utf8Size = 1 := by
    intro c hc
    exact utf8Size_of_isDigit c (List.mem_filter.mp hc).2
  have hlen := utf8Len_ascii _ hd
  by_cases h : utf8Len (s.filter Char.isDigit) < 13
  · simp [h]
  · rw [if_neg h]
    have h2 := dropBytes_ascii _ hd (utf8Len (s.filter Char.isDigit) - 4) (by omega)
    rcases Option.isSome_iff_exists.mp h2 with ⟨b, hb⟩
    simp [hb]

theorem mask_email_isSome_ascii (s : List Char) (hs : ∀ c ∈ s, c.utf8Size = 1) :
    (mask_email s).isSome := by
  unfold mask_email
  have hlen := utf8Len_ascii s hs
  cases hfind : findByteIdx s '@' with
  | none => simp
  | some at_pos =>
    have hle : at_pos ≤ s.length := hlen ▸ findByteIdx_le s '@' at_pos hfind
    have h1 := takeBytes_ascii s hs at_pos hle
    have h2 := dropBytes_ascii s hs at_pos hle
    rcases Option.isSome_iff_exists.mp h1 with ⟨loc, hloc⟩
    rcases Option.isSome_iff_exists.mp h2 with ⟨dom, hdom⟩
    dsimp only
    rw [hloc, hdom]
    dsimp only
    by_cases hemp : loc.isEmpty
    · simp [hemp]
    · rw [if_neg hemp]
      have hlocascii : ∀ c ∈ loc, c.utf8Size = 1 :=
        fun c hc => hs c (mem_of_takeBytes hloc c hc)
      have hloclen := utf8Len_ascii loc hlocascii
      have h3 := takeBytes_ascii loc hlocascii (min 1 (utf8Len loc)) (by omega)
      rcases Option.isSome_iff_exists.mp h3 with ⟨l1, hl1⟩
      simp [hl1]

theorem mask_iban_isSome_ascii (s : List Char) (hs : ∀ c ∈ s, c.utf8Size = 1) :
    (mask_iban s).isSome := by
  unfold mask_iban
  have hd : ∀ c ∈ s.filter (fun c => !c.isWhitespace), c.utf8Size = 1 := by
    intro c hc
    exact hs c (List.mem_filter.mp hc).1
  have hlen := utf8Len_ascii _ hd
  by_cases h : utf8Len (s.filter (fun c => !c.isWhitespace)) < 6
  · simp [h]
  · rw [if_neg h]
    have h1 := takeBytes_ascii _ hd 2 (by omega)
    have h2 := dropBytes_ascii _ hd
      (utf8Len (s.filter (fun c => !c.isWhitespace)) - 4) (by omega)
    rcases Option.isSome_iff_exists.mp h1 with ⟨a, ha⟩
    rcases Option.isSome_iff_exists.mp h2 with ⟨b, hb⟩
    simp [ha, hb]

theorem mask_phone_isSome (s : List Char) : (mask_phone s).isSome := by
  unfold mask_phone
  have hd : ∀ c ∈ s.filter (fun c => c.isDigit || c = '+'), c.utf8Size = 1 := by
    intro c hc
    have := (List.mem_filter.mp hc).2
    rcases Bool.or_eq_true_iff.mp this with h1 | h2
    · exact utf8Size_of_isDigit c h1
    · have : c = '+' := by simpa using h2
      subst this
      decide
  have hlen := utf8Len_ascii _ hd
  by_cases h : utf8Len (s.filter (fun c => c.isDigit || c = '+')) < 6
  · simp [h]
  · rw [if_neg h]
    have h1 := takeBytes_ascii _ hd
      (if (s.filter (fun c => c.isDigit || c = '+')).head? = some '+' then 3 else 2)
      (by split <;> omega)
    have h2 := dropBytes_ascii _ hd
      (utf8Len (s.filter (fun c => c.isDigit || c = '+')) - 3) (by omega)
    rcases Option.isSome_iff_exists.mp h1 with ⟨a, ha⟩
    rcases Option.isSome_iff_exists.mp h2 with ⟨b, hb⟩
    simp only [ha, hb]
    rfl

/-- Claim C5 as amended: mask_credit_card and mask_phone are total (they
reduce the input to ASCII characters before slicing), while mask_value,
mask_email and mask_iban are total on inputs all of whose characters are
single-byte (in particular on all ASCII strings); on multi-byte input
their byte slicing can panic, as the counterexample shows. -/
theorem c5_masking_total_amended :
    (∀ s : List Char, (mask_credit_card s).isSome ∧ (mask_phone s).isSome) ∧
    (∀ s : List Char, (∀ c ∈ s, c.utf8Size = 1) →
      (mask_value s).isSome ∧ (mask_email s).isSome ∧ (mask_iban s).isSome) :=
  ⟨fun s => ⟨mask_credit_card_isSome s, mask_phone_isSome s⟩,
    fun s hs => ⟨mask_value_isSome_ascii s hs, mask_email_isSome_ascii s hs,
      mask_iban_isSome_ascii s hs⟩⟩

/-- Witness for the amended C5 theorem on a concrete ASCII email
address. -/
theorem c5_masking_total_amended_witness :
    (∀ c ∈ "user@example.com".data, c.utf8Size = 1) ∧
    (mask_value "user@example.com".data).isSome :=
  ⟨by decide, (c5_masking_total_amended.2 "user@example.com".data (by decide)).1⟩

/-! Section: Context analyzer (src/core/context.rs)

The code measures the context windows in BYTES: match_start and
match_end are byte offsets, the window bounds are match_start - 50 and
match_end + 50 clipped to the byte length, and the window is cut with
byte slicing, which panics when a bound falls inside a multi-byte
character.  The model keeps all of this: positions are byte offsets,
the slices are cut with the byte-accurate takeBytes/dropBytes of the
masking section, and analyze returns an outer none exactly where the
Rust code panics. -/

/-- Model of the character-wise effect of Rust str::to_lowercase,
exact for code points below 0x100 other than U+00B5 (the micro sign,
which Rust maps to Greek mu): ASCII letters and the Latin-1 uppercase
range are lowered by 0x20, everything else in that range is kept.
Outside that alphabet Rust may lowercase characters (e.g. U+0100,
U+212A, U+0130) where this model does not, so theorems quantifying over
arbitrary text carry an alphabet hypothesis. -/
def rustToLower (c : Char) : Char :=
  if 'A' ≤ c ∧ c ≤ 'Z' then Char.ofNat (c.toNat + 32)
  else if 0xC0 ≤ c.toNat ∧ c.toNat ≤ 0xDE ∧ c.toNat ≠ 0xD7 then
    Char.ofNat (c.toNat + 32)
  else c

/-- Lowercasing of a whole string. -/
def toLowerStr (s : List Char) : List Char :=
  s.map rustToLower

/-- Model of Rust str::contains(&str): substring containment. -/
def containsSub (hay needle : List Char) : Bool :=
  match hay with
  | [] => needle.isEmpty
  | _ :: t => needle.isPrefixOf hay || containsSub t needle

/-- Medical keyword list (src/core/context.rs MEDICAL_KEYWORDS_ALL),
transcribed verbatim, duplicates included. -/
def MEDICAL_KEYWORDS_ALL : List String :=
  ["patient", "patients", "medical", "hospital", "clinic", "doctor",
   "physician", "nurse", "healthcare", "health care", "diagnosis",
   "treatment", "therapy", "prescription", "medication", "medicine",
   "surgery", "operation", "procedure", "practitioner", "gp", "specialist",
   "consultant", "hiv", "aids", "cancer", "oncology", "diabetes",
   "psychiatric", "mental health", "psychology", "psychotherapy",
   "depression", "anxiety", "addiction", "substance abuse", "abortion",
   "fertility", "ivf", "genetic disorder", "hereditary", "dna test",
   "ward", "emergency", "icu", "intensive care", "surgery", "radiology",
   "patiënt", "patiënte", "patiënten", "medisch", "medische", "ziekenhuis",
   "kliniek", "arts", "dokter", "huisarts", "verpleegkundige",
   "verpleging", "zorg", "gezondheidszorg", "diagnose", "behandeling",
   "therapie", "recept", "medicatie", "medicijn", "operatie", "ingreep",
   "zorgverlener", "zorginstelling", "ggz", "thuiszorg", "patient",
   "patientin", "patienten", "medizinisch", "medizinische", "krankenhaus",
   "klinik", "arzt", "ärztin", "krankenschwester", "gesundheit",
   "diagnose", "behandlung", "therapie", "rezept", "medikament",
   "operation", "eingriff", "krankenversicherung", "patient", "patiente",
   "médical", "médicale", "hôpital", "clinique", "médecin", "docteur",
   "infirmière", "santé", "diagnostic", "traitement", "thérapie",
   "ordonnance", "médicament", "opération", "chirurgie", "anamnesis",
   "prognosis", "symptom", "syndrome", "pathology"]

/-- Biometric keyword list (src/core/context.rs BIOMETRIC_KEYWORDS). -/
def BIOMETRIC_KEYWORDS : List String :=
  ["fingerprint", "fingerprints", "biometric", "biometrics",
   "facial recognition", "face recognition", "iris scan", "retina scan",
   "dna", "genetic", "voiceprint", "voice recognition", "palm print",
   "handwriting", "vingerafdruk", "vingerafdrukken", "biometrisch",
   "biometrische", "gezichtsherkenning", "irisscan", "retinascan",
   "fingerabdruck", "biometrisch", "gesichtserkennung", "iriserkennung",
   "empreinte digitale", "biométrique", "reconnaissance faciale"]

/-- Genetic keyword list (src/core/context.rs GENETIC_KEYWORDS). -/
def GENETIC_KEYWORDS : List String :=
  ["genetic", "genetics", "genome", "genomic", "dna", "rna", "gene",
   "genes", "chromosome", "hereditary", "inherited", "genetic test",
   "genetic screening", "genetic disorder", "genetisch", "genetische",
   "genoom", "gen", "genen", "chromosoom", "erfelijk", "erfelijke",
   "genetische test", "genetisch", "genom", "gen", "chromosom", "erblich",
   "génétique", "génome", "gène", "chromosome", "héréditaire"]

/-- Criminal keyword list (src/core/context.rs CRIMINAL_KEYWORDS). -/
def CRIMINAL_KEYWORDS : List String :=
  ["conviction", "convictions", "criminal", "arrest", "arrested", "police",
   "court", "lawsuit", "prosecution", "prosecutor", "offense", "offence",
   "crime", "crimes", "sentence", "sentenced", "probation", "parole",
   "detention", "prison", "jail", "inmate", "felon", "felony",
   "veroordeling", "veroordeeld", "crimineel", "arrestatie", "politie",
   "rechtbank", "vervolging", "strafbaar", "misdaad", "gevangenis",
   "celstraf", "voorwaardelijk", "reclassering", "verurteilung",
   "verurteilt", "kriminell", "verhaftung", "polizei", "gericht",
   "straftat", "verbrechen", "gefängnis", "haft", "condamnation",
   "condamné", "criminel", "arrestation", "police", "tribunal",
   "poursuite", "infraction", "crime", "prison"]

/-- Embedding of the ContextAnalyzer struct (src/core/context.rs). -/
structure ContextAnalyzer where
  window_size : Nat
  medical_keywords : List String
  biometric_keywords : List String
  genetic_keywords : List String
  criminal_keywords : List String

/-- Embedding of ContextAnalyzer::new: window 50 and the four built-in
keyword lists. -/
def ContextAnalyzer.new : ContextAnalyzer :=
  { window_size := 50
    medical_keywords := MEDICAL_KEYWORDS_ALL
    biometric_keywords := BIOMETRIC_KEYWORDS
    genetic_keywords := GENETIC_KEYWORDS
    criminal_keywords := CRIMINAL_KEYWORDS }

/-- One category loop of ContextAnalyzer::analyze: push every keyword
contained in the lowered window and set the category on each hit. -/
def scanCategory (lower : List Char) (keywords : List String)
    (cat : SpecialCategory) (acc : List String × Option SpecialCategory) :
    List String × Option SpecialCategory :=
  keywords.foldl (fun st k =>
    if containsSub lower (toLowerStr k.data) then (st.1 ++ [k], some cat) else st)
    acc

/-- Model of the Rust slice text[i..j] by byte offsets: the characters
between byte i and byte j, or none when i exceeds j or either bound is
past the end or inside a multi-byte character (the panic). -/
def sliceBytes (text : List Char) (i j : Nat) : Option (List Char) :=
  if j < i then none
  else
    match dropBytes text i with
    | some rest => takeBytes rest (j - i)
    | none => none

/-- Embedding of ContextAnalyzer::analyze (src/core/context.rs lines
26-83): clip a window of window_size BYTES on each side (clipped to the
byte length of the text), lowercase it, run the four category loops in
the fixed order medical, biometric, genetic, criminal, and return a
ContextInfo iff any keyword hit.  The outer Option models the panic of
the byte slicing: none when a window bound falls inside a multi-byte
character (or the match span is not within the text). -/
def ContextAnalyzer.analyze (a : ContextAnalyzer) (text : List Char)
    (match_start match_end : Nat) : Option (Option ContextInfo) :=
  let before_start := match_start - a.window_size
  let after_end := min (match_end + a.window_size) (utf8Len text)
  match sliceBytes text before_start match_start,
      sliceBytes text match_end after_end with
  | some before, some after =>
    let context_lower := toLowerStr (before ++ after)
    let st1 := scanCategory context_lower a.medical_keywords .medical ([], none)
    let st2 := scanCategory context_lower a.biometric_keywords .biometric st1
    let st3 := scanCategory context_lower a.genetic_keywords .genetic st2
    let st4 := scanCategory context_lower a.criminal_keywords .criminal st3
    some (if st4.1.isEmpty then none
      else some { before := before, after := after,
                  keywords := st4.1, category := st4.2 })
  | _, _ => none

/-- The clipped w-CHARACTER window (before ++ after) around a match at
character positions ms..me.  This is the specification reading of the
claim ("the clipped 50-character window"), kept as a reference
definition; the code's window is the byte-measured byteContextWindow
below, and the two differ on multi-byte text. -/
def contextWindow (w : Nat) (text : List Char) (ms me : Nat) : List Char :=
  ((text.take ms).drop (ms - w)) ++ ((text.take (min (me + w) text.length)).drop me)

/-- The clipped w-BYTE window (before ++ after) that the code inspects,
with none where its byte slicing panics. -/
def byteContextWindow (w : Nat) (text : List Char) (ms me : Nat) :
    Option (List Char) :=
  match sliceBytes text (ms - w) ms,
      sliceBytes text me (min (me + w) (utf8Len text)) with
  | some before, some after => some (before ++ after)
  | _, _ => none

/-- Keywords of one list hitting a lowered window. -/
def keywordHits (lower : List Char) (ks : List String) : List String :=
  ks.filter (fun k => containsSub lower (toLowerStr k.data))

/-- The last category with a hit, iterating medical, biometric, genetic,
criminal (so criminal wins over genetic, and so on). -/
def lastCategoryHit (lower : List Char) : Option SpecialCategory :=
  if (keywordHits lower CRIMINAL_KEYWORDS).isEmpty = false then some .criminal
  else if (keywordHits lower GENETIC_KEYWORDS).isEmpty = false then some .genetic
  else if (keywordHits lower BIOMETRIC_KEYWORDS).isEmpty = false then some .biometric
  else if (keywordHits lower MEDICAL_KEYWORDS_ALL).isEmpty = false then some .medical
  else none

theorem scanCategory_fst (lower : List Char) (ks : List String)
    (cat : SpecialCategory) (acc : List String × Option SpecialCategory) :
    (scanCategory lower ks cat acc).1 = acc.1 ++ keywordHits lower ks := by
  induction ks generalizing acc with
  | nil => simp [scanCategory, keywordHits]
  | cons k rest ih =>
    simp only [scanCategory, List.foldl_cons] at ih ⊢
    by_cases h : containsSub lower (toLowerStr k.data)
    · rw [if_pos h, ih]
      have hk : keywordHits lower (k :: rest) = k :: keywordHits lower rest := by
        simp [keywordHits, h]
      rw [hk]
      simp
    · rw [if_neg h, ih]
      have hk : keywordHits lower (k :: rest) = keywordHits lower rest := by
        simp [keywordHits, h]
      rw [hk]

theorem scanCategory_snd (lower : List Char) (ks : List String)
    (cat : SpecialCategory) (acc : List String × Option SpecialCategory) :
    (scanCategory lower ks cat acc).2 =
      if (keywordHits lower ks).isEmpty = false then some cat else acc.2 := by
  induction ks generalizing acc with
  | nil => simp [scanCategory, keywordHits]
  | cons k rest ih =>
    simp only [scanCategory, List.foldl_cons] at ih ⊢
    by_cases h : containsSub lower (toLowerStr k.data)
    · rw [if_pos h, ih]
      have hk : keywordHits lower (k :: rest) = k :: keywordHits lower rest := by
        simp [keywordHits, h]
      cases hrest : (keywordHits lower rest).isEmpty <;> simp [hk, hrest]
    · rw [if_neg h, ih]
      have hk : keywordHits lower (k :: rest) = keywordHits lower rest := by
        simp [keywordHits, h]
      rw [hk]

theorem keywordHits_nil_iff (lower : List Char) (ks : List String) :
    keywordHits lower ks = [] ↔
      ∀ k ∈ ks, containsSub lower (toLowerStr k.data) = false := by
  simp [keywordHits, List.filter_eq_nil_iff]

theorem analyze_new_none_iff (text : List Char) (ms me : Nat) :
    ContextAnalyzer.new.analyze text ms me = none ↔
      byteContextWindow 50 text ms me = none := by
  simp only [ContextAnalyzer.analyze, ContextAnalyzer.new, byteContextWindow]
  cases h1 : sliceBytes text (ms - 50) ms <;>
    cases h2 : sliceBytes text me (min (me + 50) (utf8Len text)) <;> simp

theorem analyze_new_characterization (text : List Char) (ms me : Nat)
    (b a2 : List Char)
    (hb : sliceBytes text (ms - 50) ms = some b)
    (ha : sliceBytes text me (min (me + 50) (utf8Len text)) = some a2) :
    ContextAnalyzer.new.analyze text ms me =
      some (if (keywordHits (toLowerStr (b ++ a2)) MEDICAL_KEYWORDS_ALL ++
          keywordHits (toLowerStr (b ++ a2)) BIOMETRIC_KEYWORDS ++
          keywordHits (toLowerStr (b ++ a2)) GENETIC_KEYWORDS ++
          keywordHits (toLowerStr (b ++ a2)) CRIMINAL_KEYWORDS).isEmpty
        then none
        else some
          { before := b
            after := a2
            keywords :=
              keywordHits (toLowerStr (b ++ a2)) MEDICAL_KEYWORDS_ALL ++
              keywordHits (toLowerStr (b ++ a2)) BIOMETRIC_KEYWORDS ++
              keywordHits (toLowerStr (b ++ a2)) GENETIC_KEYWORDS ++
              keywordHits (toLowerStr (b ++ a2)) CRIMINAL_KEYWORDS
            category := lastCategoryHit (toLowerStr (b ++ a2)) }) := by
  simp only [ContextAnalyzer.analyze, ContextAnalyzer.new]
  rw [hb, ha]
  simp only
  rw [scanCategory_fst, scanCategory_fst, scanCategory_fst, scanCategory_fst,
    scanCategory_snd, scanCategory_snd, scanCategory_snd, scanCategory_snd]
  simp only [List.nil_append, List.append_assoc, lastCategoryHit]

/-- Text of the C6 counterexample: a medical keyword, then 25 two-byte
characters (50 bytes), then a BSN.  The match span in bytes is 58..67,
in characters 33..42. -/
def c6CxText : List Char :=
  "patient ".data ++ List.replicate 25 'é' ++ "111222333".data

/-- Counterexample to claim C6: the analyzer windows are measured in
bytes, not characters.  On c6CxText the code's 50-byte before-window
(bytes 8..58) holds only the 25 two-byte filler characters and analyze
finds no keyword, yet the keyword patient lies inside the clipped
50-character window before the match, so the claimed iff fails.  The
first conjuncts fix the reading: bytes 58..67 are exactly the matched
characters 33..42. -/
theorem c6_claim_false :
    (sliceBytes c6CxText 58 67 = some ((c6CxText.drop 33).take 9) ∧
      (c6CxText.drop 33).take 9 = "111222333".data) ∧
    ¬ (ContextAnalyzer.new.analyze c6CxText 58 67 = some none ↔
      ∀ k ∈ MEDICAL_KEYWORDS_ALL ++ BIOMETRIC_KEYWORDS ++ GENETIC_KEYWORDS ++
          CRIMINAL_KEYWORDS,
        containsSub (toLowerStr (contextWindow 50 c6CxText 33 42))
          (toLowerStr k.data) = false) := by
  refine ⟨⟨by decide, by decide⟩, ?_⟩
  intro h
  have h1 : ContextAnalyzer.new.analyze c6CxText 58 67 = some none := by decide
  have h2 := h.mp h1 "patient" (by decide)
  exact absurd h2 (by decide)

/-- Claim C6 as amended: the windows are 50 BYTES before and after the
match, clipped to the text, and the slicing panics (outer none) exactly
when a bound falls inside a multi-byte character; when the byte window
exists, analyze returns no context iff no keyword of the four lists
occurs case-insensitively as a substring of the window, and a returned
context carries the last category with a hit in the order medical,
biometric, genetic, criminal together with exactly the hit keywords of
all four lists in order.  The alphabet hypothesis confines the statement
to the code points on which the embedded lowercasing model agrees with
Rust str::to_lowercase. -/
theorem c6_context_window_amended (text : List Char) (ms me : Nat)
    (_halpha : ∀ c ∈ text, c.toNat < 256 ∧ c.toNat ≠ 181) :
    (ContextAnalyzer.new.analyze text ms me = none ↔
      byteContextWindow 50 text ms me = none) ∧
    (∀ w, byteContextWindow 50 text ms me = some w →
      ((ContextAnalyzer.new.analyze text ms me = some none) ↔
        ∀ k ∈ MEDICAL_KEYWORDS_ALL ++ BIOMETRIC_KEYWORDS ++ GENETIC_KEYWORDS ++
            CRIMINAL_KEYWORDS,
          containsSub (toLowerStr w) (toLowerStr k.data) = false) ∧
      (∀ ctx, ContextAnalyzer.new.analyze text ms me = some (some ctx) →
        ctx.category = lastCategoryHit (toLowerStr w) ∧
        ctx.keywords =
          keywordHits (toLowerStr w) MEDICAL_KEYWORDS_ALL ++
          keywordHits (toLowerStr w) BIOMETRIC_KEYWORDS ++
          keywordHits (toLowerStr w) GENETIC_KEYWORDS ++
          keywordHits (toLowerStr w) CRIMINAL_KEYWORDS)) := by
  refine ⟨analyze_new_none_iff text ms me, ?_⟩
  intro w hw
  unfold byteContextWindow at hw
  cases hb : sliceBytes text (ms - 50) ms with
  | none => simp [hb] at hw
  | some b =>
    cases ha : sliceBytes text me (min (me + 50) (utf8Len text)) with
    | none => simp [hb, ha] at hw
    | some a2 =>
      rw [hb, ha] at hw
      simp only [Option.some.injEq] at hw
      subst hw
      have hchar := analyze_new_characterization text ms me b a2 hb ha
      rw [hchar]
      constructor
      · by_cases hemp :
          (keywordHits (toLowerStr (b ++ a2)) MEDICAL_KEYWORDS_ALL ++
            keywordHits (toLowerStr (b ++ a2)) BIOMETRIC_KEYWORDS ++
            keywordHits (toLowerStr (b ++ a2)) GENETIC_KEYWORDS ++
            keywordHits (toLowerStr (b ++ a2)) CRIMINAL_KEYWORDS).isEmpty
        · rw [if_pos hemp]
          constructor
          · intro _
            simp only [List.isEmpty_iff, List.append_eq_nil] at hemp
            obtain ⟨⟨⟨h1, h2⟩, h3⟩, h4⟩ := hemp
            rw [keywordHits_nil_iff] at h1 h2 h3 h4
            intro k hk
            rcases List.mem_append.mp hk with hk | h4k
            · rcases List.mem_append.mp hk with hk | h3k
              · rcases List.mem_append.mp hk with h1k | h2k
                · exact h1 k h1k
                · exact h2 k h2k
              · exact h3 k h3k
            · exact h4 k h4k
          · intro _
            rfl
        · rw [if_neg hemp]
          constructor
          · intro h
            simp at h
          · intro hall
            exfalso
            have hnil : ∀ ks : List String,
                (∀ k ∈ ks, containsSub (toLowerStr (b ++ a2))
                  (toLowerStr k.data) = false) →
                keywordHits (toLowerStr (b ++ a2)) ks = [] :=
              fun ks h => (keywordHits_nil_iff _ ks).mpr h
            have h1 := hnil MEDICAL_KEYWORDS_ALL
              (fun k hk => hall k (by simp [hk]))
            have h2 := hnil BIOMETRIC_KEYWORDS
              (fun k hk => hall k (by simp [hk]))
            have h3 := hnil GENETIC_KEYWORDS
              (fun k hk => hall k (by simp [hk]))
            have h4 := hnil CRIMINAL_KEYWORDS
              (fun k hk => hall k (by simp [hk]))
            simp only [List.isEmpty_iff, List.append_eq_nil, not_and_or] at hemp
            rcases hemp with (((h | h) | h) | h) <;>
              exact h (by simp [h1, h2, h3, h4])
      · intro ctx hctx
        by_cases hemp :
          (keywordHits (toLowerStr (b ++ a2)) MEDICAL_KEYWORDS_ALL ++
            keywordHits (toLowerStr (b ++ a2)) BIOMETRIC_KEYWORDS ++
            keywordHits (toLowerStr (b ++ a2)) GENETIC_KEYWORDS ++
            keywordHits (toLowerStr (b ++ a2)) CRIMINAL_KEYWORDS).isEmpty
        · rw [if_pos hemp] at hctx
          exact absurd hctx (by simp)
        · rw [if_neg hemp] at hctx
          have hctx2 := Option.some.inj (Option.some.inj hctx)
          subst hctx2
          exact ⟨rfl, rfl⟩

/-- Concrete ContextInfo value returned by the analyzer on the C6
witness input: the keyword dna hits both the biometric and the genetic
list, and genetic, being later in the iteration order, wins. -/
def c6WitnessCtx : ContextInfo :=
  { before := "dna ".data, after := [], keywords := ["dna", "dna"],
    category := some .genetic }

/-- Witness for the amended C6 theorem at a concrete ASCII text and byte
span, discharging the alphabet and window hypotheses. -/
theorem c6_context_window_amended_witness :
    ((∀ c ∈ "dna 111222333".data, c.toNat < 256 ∧ c.toNat ≠ 181) ∧
      byteContextWindow 50 "dna 111222333".data 4 13 = some "dna ".data ∧
      ContextAnalyzer.new.analyze "dna 111222333".data 4 13 =
        some (some c6WitnessCtx)) ∧
    c6WitnessCtx.category = lastCategoryHit (toLowerStr "dna ".data) :=
  ⟨⟨by decide, by decide, by decide⟩,
    (((c6_context_window_amended "dna 111222333".data 4 13 (by decide)).2
      "dna ".data (by decide)).2 c6WitnessCtx (by decide)).1⟩

/-! Section: Scan engine (src/scanner/engine.rs)

The file system is abstracted: the extractor lookup and the read are
inputs (Except values), the registry is the list of per-detector match
lists computed from the content, and scan_file is the pure function of
those inputs that the Rust code computes.  The analyzer's byte-slicing
panic propagates through the engine, so the context step, the detector
loop and scan_file itself return none where the Rust code would panic
instead of returning. -/

/-- Embedding of the per-match context step of ScanEngine::scan_file
(src/scanner/engine.rs lines 109-125): run the analyzer on the match
span; on a special category upgrade severity to Critical and set the
Special GDPR category; always attach the context when one is found.
An analyzer panic (outer none) propagates. -/
def applyContextLoop (analyzer : ContextAnalyzer) (content : List Char)
    (m : Match) : Option Match :=
  match analyzer.analyze content m.location.start_byte m.location.end_byte with
  | none => none
  | some (some context) =>
    let m2 :=
      match context.category with
      | some category =>
        { m with severity := .critical,
                 gdpr_category := .special category context.keywords }
      | none => m
    some { m2 with context := some context }
  | some none => some m

/-- The for loop over one detector's matches applying the context step;
none as soon as the analyzer panics on a match. -/
def mapOption (f : Match → Option Match) : List Match → Option (List Match)
  | [] => some []
  | x :: xs =>
    match f x, mapOption f xs with
    | some y, some ys => some (y :: ys)
    | _, _ => none

/-- Embedding of the detector loop of ScanEngine::scan_file (lines
103-129): each detector's matches, with the context step applied when
enable_context is set, extended onto the accumulated match list; none
when the context step panics anywhere. -/
def scanFileMatches (registryOutputs : List (List Match))
    (analyzer : ContextAnalyzer) (content : List Char)
    (enable_context : Bool) : Option (List Match) :=
  registryOutputs.foldl (fun acc ms =>
    match acc with
    | none => none
    | some l =>
      if enable_context then
        match mapOption (applyContextLoop analyzer content) ms with
        | some ms2 => some (l ++ ms2)
        | none => none
      else some (l ++ ms))
    (some [])

/-- Embedding of ScanEngine::scan_file (src/scanner/engine.rs lines
46-133).  has_extractors: an extractor registry is configured;
ext_extractor = some r: the extension has a registered extractor whose
extract call returns r; ext_extractor = none: no extension or none
registered, so the file is read as UTF-8 text with outcome read_result.
On either failure the function returns early with the prefixed error and
no matches; none models a panic during the detector/context loop. -/
def scan_file_model (has_extractors : Bool)
    (ext_extractor : Option (Except String (List Char)))
    (read_result : Except String (List Char))
    (path : String) (size_bytes scan_time : Nat)
    (registry : List Char → List (List Match))
    (analyzer : ContextAnalyzer) (enable_context : Bool) : Option FileResult :=
  let base : FileResult :=
    { path := path, matches_ := [], size_bytes := size_bytes,
      scan_time_ms := 0, error := none }
  let content? : Except String (List Char) :=
    if has_extractors then
      match ext_extractor with
      | some (Except.ok t) => Except.ok t
      | some (Except.error e) => Except.error ("Extraction failed: " ++ e)
      | none =>
        match read_result with
        | Except.ok t => Except.ok t
        | Except.error e => Except.error ("Failed to read file: " ++ e)
    else
      match read_result with
      | Except.ok t => Except.ok t
      | Except.error e => Except.error ("Failed to read file: " ++ e)
  match content? with
  | Except.error msg => some { base with error := some msg }
  | Except.ok content =>
    match scanFileMatches (registry content) analyzer content enable_context with
    | some ms => some { base with matches_ := ms, scan_time_ms := scan_time }
    | none => none

/-- Claim C7: whenever scan_file returns a FileResult with error set,
the message carries the prefix given by the failing stage (a read error
or an extractor error), and the match list is empty. -/
theorem c7_scan_file_error_contract (has_extractors : Bool)
    (ext_extractor : Option (Except String (List Char)))
    (read_result : Except String (List Char))
    (path : String) (size_bytes scan_time : Nat)
    (registry : List Char → List (List Match))
    (analyzer : ContextAnalyzer) (enable_context : Bool)
    (fr : FileResult) (msg : String)
    (hret : scan_file_model has_extractors ext_extractor read_result path
        size_bytes scan_time registry analyzer enable_context = some fr)
    (h : fr.error = some msg) :
    ((∃ e, msg = "Failed to read file: " ++ e) ∨
      (∃ e, msg = "Extraction failed: " ++ e)) ∧
    fr.matches_ = [] := by
  unfold scan_file_model at hret
  cases has_extractors with
  | false =>
    cases read_result with
    | ok t =>
      simp at hret
      split at hret
      · simp at hret
        subst hret
        simp at h
      · simp at hret
    | error e =>
      simp at hret
      subst hret
      simp at h
      exact ⟨Or.inl ⟨e, h.symm⟩, rfl⟩
  | true =>
    cases ext_extractor with
    | some r =>
      cases r with
      | ok t =>
        simp at hret
        split at hret
        · simp at hret
          subst hret
          simp at h
        · simp at hret
      | error e =>
        simp at hret
        subst hret
        simp at h
        exact ⟨Or.inr ⟨e, h.symm⟩, rfl⟩
    | none =>
      cases read_result with
      | ok t =>
        simp at hret
        split at hret
        · simp at hret
          subst hret
          simp at h
        · simp at hret
      | error e =>
        simp at hret
        subst hret
        simp at h
        exact ⟨Or.inl ⟨e, h.symm⟩, rfl⟩

/-- The FileResult returned on the C7 witness inputs. -/
def c7WitnessResult : FileResult :=
  { path := "f.pdf", matches_ := [], size_bytes := 10, scan_time_ms := 0,
    error := some "Extraction failed: boom" }

/-- Witness for C7: a concrete failing extractor produces the prefixed
error and an empty match list. -/
theorem c7_scan_file_error_contract_witness :
    (scan_file_model true (some (Except.error "boom")) (Except.ok [])
        "f.pdf" 10 1 (fun _ => []) ContextAnalyzer.new true =
      some c7WitnessResult ∧
      c7WitnessResult.error = some "Extraction failed: boom") ∧
    c7WitnessResult.matches_ = [] :=
  ⟨⟨rfl, rfl⟩,
    (c7_scan_file_error_contract true (some (Except.error "boom")) (Except.ok [])
      "f.pdf" 10 1 (fun _ => []) ContextAnalyzer.new true
      c7WitnessResult "Extraction failed: boom" rfl rfl).2⟩

/-! Section: Regex model for the detector patterns

The detector regexes are fixed anchored digit patterns.  A pattern is
modelled as a function from the text suffix at the match position to the
list of lengths it can consume, in the preference order of the regex
crate's leftmost-first semantics (greedy optional separators first); the
first alternative that survives the whole pattern is the match.
Character classes follow the ASCII reading of the Rust classes, which is
exact on the ASCII inputs these digit patterns can match. -/

/-- Pattern alternatives: consumed lengths in preference order. -/
def RegexAlts : Type := List Char → List Nat

/-- Rust regex word character, ASCII part: letters, digits, underscore. -/
def isWordChar (c : Char) : Bool :=
  c.isAlphanum || c = '_'

/-- Rust regex whitespace class, ASCII part. -/
def rustIsSpace (c : Char) : Bool :=
  c = ' ' || c = '\t' || c = '\n' || c = '\r' || c = '\x0b' || c = '\x0c'

/-- Separator class of the BSN and card patterns. -/
def bsnSep (c : Char) : Bool :=
  rustIsSpace c || c = '-'

/-- Sequencing of two pattern pieces, preserving preference order. -/
def pSeq (p q : RegexAlts) : RegexAlts :=
  fun l => (p l).flatMap (fun n => (q (l.drop n)).map (fun m => n + m))

/-- Exactly k digits. -/
def pDigits (k : Nat) : RegexAlts :=
  fun l => if (l.take k).length = k && (l.take k).all Char.isDigit then [k] else []

/-- A greedy optional separator: prefer consuming it. -/
def pOpt (sep : Char → Bool) : RegexAlts :=
  fun l =>
    match l with
    | c :: _ => if sep c then [1, 0] else [0]
    | [] => [0]

/-- A single character of a class. -/
def pCharClass (p : Char → Bool) : RegexAlts :=
  fun l =>
    match l with
    | c :: _ => if p c then [1] else []
    | [] => []

/-- Word boundary after a word character: the next character must not be
a word character (or the text ends). -/
def pBoundaryAfter : RegexAlts :=
  fun l =>
    match l with
    | [] => [0]
    | c :: _ => if isWordChar c then [] else [0]

/-- Greedy digit repetition lo..hi (used for the generic card pattern),
preferring longer runs. -/
def pDigitsRange (lo hi : Nat) : RegexAlts :=
  fun l =>
    (((List.range (hi + 1 - lo)).map (fun i => hi - i)).filter
      (fun k => (l.take k).length = k && (l.take k).all Char.isDigit)).flatMap
      (fun k => if (pBoundaryAfter (l.drop k)).isEmpty then [] else [k])

/-- Scanner of find_iter: try the pattern at every position whose
preceding character is not a word character (the leading word boundary,
given that every pattern starts with a digit); on a match, emit it and
continue after its end.  The fuel is the remaining text length plus one,
which dominates the number of steps. -/
def findIterAux (pat : RegexAlts) : Nat → Option Char → List Char → Nat →
    List (Nat × Nat)
  | 0, _, _, _ => []
  | fuel + 1, prev, rest, pos =>
    match rest with
    | [] => []
    | c :: rs =>
      let prevWord := match prev with | some p => isWordChar p | none => false
      match (if prevWord then [] else pat rest).head? with
      | some n =>
        if n = 0 then findIterAux pat fuel (some c) rs (pos + 1)
        else
          (pos, pos + n) ::
            findIterAux pat fuel ((rest.take n).getLast?) (rest.drop n) (pos + n)
      | none => findIterAux pat fuel (some c) rs (pos + 1)

/-- All non-overlapping leftmost-first matches of a pattern in a line. -/
def findIter (pat : RegexAlts) (line : List Char) : List (Nat × Nat) :=
  findIterAux pat (line.length + 1) none line 0

/-- Strip one trailing carriage return, as str::lines does. -/
def stripCR (l : List Char) : List Char :=
  if l.getLast? = some '\r' then l.dropLast else l

/-- Model of str::lines: split on newline, no trailing empty line for a
terminating newline, one trailing carriage return stripped per line. -/
def rustLines (text : List Char) : List (List Char) :=
  if text.isEmpty then []
  else
    let parts := text.splitOn '\n'
    let parts := if text.getLast? = some '\n' then parts.dropLast else parts
    parts.map stripCR

/-- The shared per-detector scan loop: enumerate lines, run the pattern
on each line, emit a match per surviving capture, and accumulate the
byte offset by line length plus one for the newline. -/
def detectLines (emit : Nat → Nat → List Char → Nat × Nat → Option Match)
    (pat : RegexAlts) (text : List Char) : List Match :=
  ((rustLines text).enum.foldl (fun (acc : List Match × Nat) p =>
      (acc.1 ++ (findIter pat p.2).filterMap (emit p.1 acc.2 p.2),
        acc.2 + p.2.length + 1))
    ([], 0)).1

/-! Section: BSN detector (src/detectors/nl/bsn.rs) -/

/-- The BSN pattern: word boundary, three digits, optional separator,
two digits, optional separator, four digits, word boundary. -/
def BSN_PATTERN : RegexAlts :=
  pSeq (pDigits 3) (pSeq (pOpt bsnSep) (pSeq (pDigits 2)
    (pSeq (pOpt bsnSep) (pSeq (pDigits 4) pBoundaryAfter))))

/-- The body of the BSN capture loop (src/detectors/nl/bsn.rs lines
55-94): extract the digits of the capture, validate with the 11-proef,
and emit a Critical, High-confidence match only when validation passed
(strict mode). -/
def bsnEmit (path : String) (line_num byte_offset : Nat) (line : List Char)
    (se : Nat × Nat) : Option Match :=
  let matched_text := (line.drop se.1).take (se.2 - se.1)
  let digits := matched_text.filter Char.isDigit
  let is_valid := validate_bsn_11_proef digits
  let confidence := if is_valid then Confidence.high else Confidence.low
  if confidence = Confidence.high then
    some
      { detector_id := "nl_bsn"
        detector_name := "Dutch BSN (Burgerservicenummer)"
        country := "nl"
        value_masked := mask_value digits
        location :=
          { file_path := path, line := line_num + 1, column := se.1,
            start_byte := byte_offset + se.1, end_byte := byte_offset + se.2 }
        confidence := confidence
        severity := Severity.critical
        context := none
        gdpr_category := GdprCategory.regular }
  else none

/-- Embedding of BsnDetector::detect. -/
def BsnDetector.detect (text : List Char) (path : String) : List Match :=
  detectLines (bsnEmit path) BSN_PATTERN text

/-! Section: NIR detector (src/detectors/fr/nir.rs) -/

/-- Parse of str::parse::<u64> on a digit string (no overflow for the
13-digit NIR body). -/
def parseNatDigits (l : List Char) : Option Nat :=
  if l.isEmpty then none
  else if l.all Char.isDigit then
    some (l.foldl (fun a c => a * 10 + (c.toNat - 48)) 0)
  else none

/-- Embedding of NirDetector::validate_nir: 15 digits, leading digit in
1, 2, 7, 8, and checksum 97 - (first 13 digits mod 97). -/
def validate_nir (digits : List Char) : Bool :=
  if digits.length ≠ 15 then false
  else
    match digits.head? with
    | none => false
    | some first =>
      if ¬(first = '1' ∨ first = '2' ∨ first = '7' ∨ first = '8') then false
      else
        match parseNatDigits (digits.take 13),
            parseNatDigits ((digits.drop 13).take 2) with
        | some number, some checksum => checksum = 97 - number % 97
        | _, _ => false

/-- The NIR pattern: word boundary, one of 1 2 7 8, then digit groups of
2, 2, 2, 3, 3, 2 each preceded by an optional space, word boundary. -/
def NIR_PATTERN : RegexAlts :=
  pSeq (pCharClass (fun c => c = '1' || c = '2' || c = '7' || c = '8'))
    (pSeq (pOpt rustIsSpace) (pSeq (pDigits 2)
      (pSeq (pOpt rustIsSpace) (pSeq (pDigits 2)
        (pSeq (pOpt rustIsSpace) (pSeq (pDigits 2)
          (pSeq (pOpt rustIsSpace) (pSeq (pDigits 3)
            (pSeq (pOpt rustIsSpace) (pSeq (pDigits 3)
              (pSeq (pOpt rustIsSpace) (pSeq (pDigits 2) pBoundaryAfter))))))))))))

/-- The body of the NIR capture loop (src/detectors/fr/nir.rs lines
98-137); note the 1-indexed column, column = capture.start() + 1. -/
def nirEmit (path : String) (line_num byte_offset : Nat) (line : List Char)
    (se : Nat × Nat) : Option Match :=
  let matched_text := (line.drop se.1).take (se.2 - se.1)
  let digits := matched_text.filter Char.isDigit
  let is_valid := validate_nir digits
  let confidence := if is_valid then Confidence.high else Confidence.low
  if confidence = Confidence.high then
    some
      { detector_id := "fr_nir"
        detector_name := "French NIR (Numéro de Sécurité Sociale)"
        country := "fr"
        value_masked := mask_value digits
        location :=
          { file_path := path, line := line_num + 1, column := se.1 + 1,
            start_byte := byte_offset + se.1, end_byte := byte_offset + se.2 }
        confidence := confidence
        severity := Severity.critical
        context := none
        gdpr_category := GdprCategory.regular }
  else none

/-- Embedding of NirDetector::detect. -/
def NirDetector.detect (text : List Char) (path : String) : List Match :=
  detectLines (nirEmit path) NIR_PATTERN text

/-! Section: Credit card detector (src/detectors/financial/creditcard.rs) -/

/-- The Visa pattern: 4, three digits, then three groups of four digits
with optional separators. -/
def VISA_PATTERN : RegexAlts :=
  pSeq (pCharClass (fun c => c = '4')) (pSeq (pDigits 3)
    (pSeq (pOpt bsnSep) (pSeq (pDigits 4) (pSeq (pOpt bsnSep)
      (pSeq (pDigits 4) (pSeq (pOpt bsnSep) (pSeq (pDigits 4) pBoundaryAfter)))))))

/-- The Mastercard pattern: 5, one of 1-5, two digits, then three
groups of four digits with optional separators. -/
def MASTERCARD_PATTERN : RegexAlts :=
  pSeq (pCharClass (fun c => c = '5'))
    (pSeq (pCharClass (fun c => '1' ≤ c && c ≤ '5')) (pSeq (pDigits 2)
      (pSeq (pOpt bsnSep) (pSeq (pDigits 4) (pSeq (pOpt bsnSep)
        (pSeq (pDigits 4) (pSeq (pOpt bsnSep) (pSeq (pDigits 4) pBoundaryAfter))))))))

/-- The Amex pattern: 3, one of 4 or 7, two digits, then groups of six
and five digits with optional separators. -/
def AMEX_PATTERN : RegexAlts :=
  pSeq (pCharClass (fun c => c = '3'))
    (pSeq (pCharClass (fun c => c = '4' || c = '7')) (pSeq (pDigits 2)
      (pSeq (pOpt bsnSep) (pSeq (pDigits 6)
        (pSeq (pOpt bsnSep) (pSeq (pDigits 5) pBoundaryAfter))))))

/-- The generic card pattern: three groups of four digits and a final
run of one to seven digits, with optional separators. -/
def GENERIC_CARD_PATTERN : RegexAlts :=
  pSeq (pDigits 4) (pSeq (pOpt bsnSep) (pSeq (pDigits 4)
    (pSeq (pOpt bsnSep) (pSeq (pDigits 4) (pSeq (pOpt bsnSep)
      (pDigitsRange 1 7))))))

/-- Embedding of CreditCardDetector::detect_card_type (lines 39-54):
Visa on a leading 4; Mastercard on 51 through 55; American Express on 34
or 37; everything else, including the 2221-2720 Mastercard range, is
Unknown. -/
def detect_card_type (digits : List Char) : String :=
  if digits.head? = some '4' then "Visa"
  else if digits.head? = some '5' ∧ 2 ≤ digits.length then
    (if '1' ≤ digits.getD 1 ' ' ∧ digits.getD 1 ' ' ≤ '5' then "Mastercard"
     else "Unknown")
  else if "34".data.isPrefixOf digits || "37".data.isPrefixOf digits then
    "American Express"
  else "Unknown"

/-- The body of the card capture loop (lines 94-125): Luhn-validate the
captured digits and emit a High-severity, High-confidence match naming
the inferred card family. -/
def ccEmit (path : String) (line_num byte_offset : Nat) (line : List Char)
    (se : Nat × Nat) : Option Match :=
  let matched_text := (line.drop se.1).take (se.2 - se.1)
  let digits := matched_text.filter Char.isDigit
  if validate_luhn digits then
    some
      { detector_id := "creditcard"
        detector_name := "Credit Card Number (" ++ detect_card_type digits ++ ")"
        country := "universal"
        value_masked := mask_credit_card digits
        location :=
          { file_path := path, line := line_num + 1, column := se.1,
            start_byte := byte_offset + se.1, end_byte := byte_offset + se.2 }
        confidence := Confidence.high
        severity := Severity.high
        context := none
        gdpr_category := GdprCategory.regular }
  else none

/-- Model of Vec::dedup_by_key's inner walk: drop elements whose key
equals the key of the last retained element. -/
def dedupByKeyGo (key : Match → Nat) (prev : Match) : List Match → List Match
  | [] => []
  | b :: r =>
    if key b = key prev then dedupByKeyGo key prev r
    else b :: dedupByKeyGo key b r

/-- Model of Vec::dedup_by_key: keep the first of each run of
consecutive elements with equal keys. -/
def dedupByKey (key : Match → Nat) : List Match → List Match
  | [] => []
  | a :: r => a :: dedupByKeyGo key a r

/-- Embedding of CreditCardDetector::detect (lines 80-136): scan every
line with the four patterns in order, then sort by start_byte (stable,
as Vec::sort_by_key) and deduplicate by start_byte. -/
def CreditCardDetector.detect (text : List Char) (path : String) : List Match :=
  let all :=
    ((rustLines text).enum.foldl (fun (acc : List Match × Nat) p =>
        (acc.1 ++
          ([VISA_PATTERN, MASTERCARD_PATTERN, AMEX_PATTERN,
            GENERIC_CARD_PATTERN].flatMap (fun pat =>
            (findIter pat p.2).filterMap (ccEmit path p.1 acc.2 p.2))),
          acc.2 + p.2.length + 1))
      ([], 0)).1
  dedupByKey (fun m => m.location.start_byte)
    (all.mergeSort (fun a b => a.location.start_byte ≤ b.location.start_byte))

/-! Section: Per-claim lemmas about the detectors and the engine -/

theorem detectLines_mem (emit : Nat → Nat → List Char → Nat × Nat → Option Match)
    (pat : RegexAlts) (text : List Char) (m : Match)
    (h : m ∈ detectLines emit pat text) :
    ∃ ln off line se, emit ln off line se = some m := by
  have key : ∀ (l : List (Nat × List Char)) (acc : List Match × Nat),
      (∀ x ∈ acc.1, ∃ ln off line se, emit ln off line se = some x) →
      ∀ x ∈ (l.foldl (fun (acc : List Match × Nat) p =>
          (acc.1 ++ (findIter pat p.2).filterMap (emit p.1 acc.2 p.2),
            acc.2 + p.2.length + 1)) acc).1,
        ∃ ln off line se, emit ln off line se = some x := by
    intro l
    induction l with
    | nil => exact fun acc hacc x hx => hacc x hx
    | cons hd tl ih =>
      intro acc hacc x hx
      refine ih _ ?_ x hx
      intro y hy
      rcases List.mem_append.mp hy with hy | hy
      · exact hacc y hy
      · rcases List.mem_filterMap.mp hy with ⟨se, _, hse⟩
        exact ⟨hd.1, acc.2, hd.2, se, hse⟩
  exact key _ ([], 0) (by simp) m h

theorem bsnEmit_some {path : String} {ln off : Nat} {line : List Char}
    {se : Nat × Nat} {m : Match} (h : bsnEmit path ln off line se = some m) :
    validate_bsn_11_proef (((line.drop se.1).take (se.2 - se.1)).filter Char.isDigit)
      = true ∧
    m = { detector_id := "nl_bsn"
          detector_name := "Dutch BSN (Burgerservicenummer)"
          country := "nl"
          value_masked :=
            mask_value (((line.drop se.1).take (se.2 - se.1)).filter Char.isDigit)
          location :=
            { file_path := path, line := ln + 1, column := se.1,
              start_byte := off + se.1, end_byte := off + se.2 }
          confidence := .high
          severity := .critical
          context := none
          gdpr_category := .regular } := by
  unfold bsnEmit at h
  by_cases hv : validate_bsn_11_proef
      (((line.drop se.1).take (se.2 - se.1)).filter Char.isDigit)
  · simp only [hv, if_true, reduceIte, Option.some.injEq] at h
    exact ⟨hv, h.symm⟩
  · simp only [Bool.not_eq_true] at hv
    simp [hv] at h

theorem nirEmit_some {path : String} {ln off : Nat} {line : List Char}
    {se : Nat × Nat} {m : Match} (h : nirEmit path ln off line se = some m) :
    validate_nir (((line.drop se.1).take (se.2 - se.1)).filter Char.isDigit)
      = true ∧
    m = { detector_id := "fr_nir"
          detector_name := "French NIR (Numéro de Sécurité Sociale)"
          country := "fr"
          value_masked :=
            mask_value (((line.drop se.1).take (se.2 - se.1)).filter Char.isDigit)
          location :=
            { file_path := path, line := ln + 1, column := se.1 + 1,
              start_byte := off + se.1, end_byte := off + se.2 }
          confidence := .high
          severity := .critical
          context := none
          gdpr_category := .regular } := by
  unfold nirEmit at h
  by_cases hv : validate_nir
      (((line.drop se.1).take (se.2 - se.1)).filter Char.isDigit)
  · simp only [hv, if_true, reduceIte, Option.some.injEq] at h
    exact ⟨hv, h.symm⟩
  · simp only [Bool.not_eq_true] at hv
    simp [hv] at h

theorem ccEmit_some {path : String} {ln off : Nat} {line : List Char}
    {se : Nat × Nat} {m : Match} (h : ccEmit path ln off line se = some m) :
    validate_luhn (((line.drop se.1).take (se.2 - se.1)).filter Char.isDigit)
      = true ∧
    m = { detector_id := "creditcard"
          detector_name := "Credit Card Number (" ++
            detect_card_type
              (((line.drop se.1).take (se.2 - se.1)).filter Char.isDigit) ++ ")"
          country := "universal"
          value_masked :=
            mask_credit_card (((line.drop se.1).take (se.2 - se.1)).filter Char.isDigit)
          location :=
            { file_path := path, line := ln + 1, column := se.1,
              start_byte := off + se.1, end_byte := off + se.2 }
          confidence := .high
          severity := .high
          context := none
          gdpr_category := .regular } := by
  unfold ccEmit at h
  by_cases hv : validate_luhn
      (((line.drop se.1).take (se.2 - se.1)).filter Char.isDigit)
  · simp only [hv, if_true, reduceIte, Option.some.injEq] at h
    exact ⟨hv, h.symm⟩
  · simp only [Bool.not_eq_true] at hv
    simp [hv] at h

/-- Claim C1: every match emitted by an embedded built-in country
detector (nl_bsn, the detector the claim cites, and fr_nir) has
confidence High, and the digit string extracted from the matched text
satisfies that detector's validator (failing candidates are suppressed
and never emitted); the masked value of the match is the mask of that
validated digit string. -/
theorem c1_country_detector_high_confidence (text : List Char) (path : String)
    (m : Match) :
    (m ∈ BsnDetector.detect text path →
      m.confidence = .high ∧
      ∃ digits, validate_bsn_11_proef digits = true ∧
        m.value_masked = mask_value digits) ∧
    (m ∈ NirDetector.detect text path →
      m.confidence = .high ∧
      ∃ digits, validate_nir digits = true ∧
        m.value_masked = mask_value digits) := by
  constructor
  · intro h
    rcases detectLines_mem _ _ _ _ h with ⟨ln, off, line, se, hemit⟩
    rcases bsnEmit_some hemit with ⟨hv, hm⟩
    subst hm
    exact ⟨rfl, _, hv, rfl⟩
  · intro h
    rcases detectLines_mem _ _ _ _ h with ⟨ln, off, line, se, hemit⟩
    rcases nirEmit_some hemit with ⟨hv, hm⟩
    subst hm
    exact ⟨rfl, _, hv, rfl⟩

/-- The single match emitted on the C1 witness text. -/
def c1WitnessMatch : Match :=
  { detector_id := "nl_bsn"
    detector_name := "Dutch BSN (Burgerservicenummer)"
    country := "nl"
    value_masked := some "111****33".data
    location :=
      { file_path := "test.txt", line := 1, column := 14,
        start_byte := 14, end_byte := 23 }
    confidence := .high
    severity := .critical
    context := none
    gdpr_category := .regular }

/-- Witness for C1: the BSN detector finds 111222333 in a concrete text
and the theorem yields High confidence for it. -/
theorem c1_country_detector_high_confidence_witness :
    (c1WitnessMatch ∈ BsnDetector.detect "Customer BSN: 111222333".data "test.txt") ∧
    c1WitnessMatch.confidence = .high :=
  ⟨by decide,
    ((c1_country_detector_high_confidence "Customer BSN: 111222333".data
      "test.txt" c1WitnessMatch).1 (by decide)).1⟩

theorem mapOption_mem (f : Match → Option Match) (l l2 : List Match)
    (h : mapOption f l = some l2) : ∀ y ∈ l2, ∃ x ∈ l, f x = some y := by
  induction l generalizing l2 with
  | nil =>
    simp only [mapOption, Option.some.injEq] at h
    subst h
    simp
  | cons x xs ih =>
    simp only [mapOption] at h
    split at h
    · rename_i y0 ys hfx hrest
      simp only [Option.some.injEq] at h
      subst h
      intro y hy
      rcases List.mem_cons.mp hy with h1 | h2
      · subst h1
        exact ⟨x, by simp, hfx⟩
      · rcases ih ys hrest y h2 with ⟨x2, hx2, hfx2⟩
        exact ⟨x2, by simp [hx2], hfx2⟩
    · exact absurd h (by simp)

theorem scanFileMatches_mem (outs : List (List Match)) (a : ContextAnalyzer)
    (content : List Char) (ml : List Match) (m : Match)
    (h : scanFileMatches outs a content true = some ml) (hm : m ∈ ml) :
    ∃ ms ∈ outs, ∃ m0 ∈ ms, applyContextLoop a content m0 = some m := by
  have hunfold : scanFileMatches outs a content true =
      outs.foldl (fun acc ms =>
        match acc with
        | none => none
        | some l0 =>
          match mapOption (applyContextLoop a content) ms with
          | some ms2 => some (l0 ++ ms2)
          | none => none) (some []) := rfl
  rw [hunfold] at h
  have key : ∀ (l : List (List Match)) (acc : Option (List Match))
      (ml : List Match),
      (l.foldl (fun acc ms =>
        match acc with
        | none => none
        | some l0 =>
          match mapOption (applyContextLoop a content) ms with
          | some ms2 => some (l0 ++ ms2)
          | none => none) acc) = some ml →
      ∀ m ∈ ml, (∃ l0, acc = some l0 ∧ m ∈ l0) ∨
        ∃ ms ∈ l, ∃ m0 ∈ ms, applyContextLoop a content m0 = some m := by
    intro l
    induction l with
    | nil =>
      intro acc ml hfold m hm
      exact Or.inl ⟨ml, hfold, hm⟩
    | cons hd tl ih =>
      intro acc ml hfold m hm
      rcases ih _ ml hfold m hm with ⟨l0, hl0, hml0⟩ | ⟨ms, hms, rest⟩
      · cases acc with
        | none => simp at hl0
        | some l1 =>
          simp only at hl0
          cases hmo : mapOption (applyContextLoop a content) hd with
          | none => rw [hmo] at hl0; exact absurd hl0 (by simp)
          | some ms2 =>
            rw [hmo] at hl0
            simp only [Option.some.injEq] at hl0
            subst hl0
            rcases List.mem_append.mp hml0 with h1 | h2
            · exact Or.inl ⟨l1, rfl, h1⟩
            · rcases mapOption_mem _ hd ms2 hmo m h2 with ⟨m0, hm0, hf⟩
              exact Or.inr ⟨hd, by simp, m0, hm0, hf⟩
      · exact Or.inr ⟨ms, by simp [hms], rest⟩
  rcases key outs (some []) ml h m hm with ⟨l0, hl0, hml0⟩ | h2
  · simp only [Option.some.injEq] at hl0
    subst hl0
    exact absurd hml0 (by simp)
  · exact h2

theorem applyContextLoop_regular_special (a : ContextAnalyzer)
    (content : List Char) (m0 : Match) (hreg : m0.gdpr_category = .regular) :
    ∀ m, applyContextLoop a content m0 = some m →
      ∀ c kws, m.gdpr_category = .special c kws → m.severity = .critical := by
  intro m happ c kws hspec
  unfold applyContextLoop at happ
  split at happ
  · exact absurd happ (by simp)
  · rename_i context hAeq
    simp only [Option.some.injEq] at happ
    subst happ
    cases hc : context.category with
    | some cat =>
      simp only [hc]
    | none =>
      rw [hc] at hspec
      simp only at hspec
      rw [hreg] at hspec
      exact absurd hspec (by simp)
  · simp only [Option.some.injEq] at happ
    subst happ
    rw [hreg] at hspec
    exact absurd hspec (by simp)

/-- Claim C2: in the engine's per-match context step, a context whose
category is set forces severity Critical and the Special GDPR category
with the context's keywords; consequently, in the match list scan_file
builds with context enabled from detectors that emit Regular matches
(as every built-in detector does; proved below for the embedded BSN
detector), every match with a Special category has severity Critical. -/
theorem c2_context_upgrade_invariant :
    (∀ (a : ContextAnalyzer) (content : List Char) (m : Match)
        (ctx : ContextInfo) (c : SpecialCategory),
      a.analyze content m.location.start_byte m.location.end_byte =
        some (some ctx) →
      ctx.category = some c →
      ∃ m2, applyContextLoop a content m = some m2 ∧
        m2.severity = .critical ∧
        m2.gdpr_category = .special c ctx.keywords) ∧
    (∀ (outs : List (List Match)) (a : ContextAnalyzer) (content : List Char)
        (ml : List Match) (m : Match),
      (∀ ms ∈ outs, ∀ m0 ∈ ms, m0.gdpr_category = .regular) →
      scanFileMatches outs a content true = some ml →
      m ∈ ml →
      ∀ c kws, m.gdpr_category = .special c kws → m.severity = .critical) ∧
    (∀ (text : List Char) (path : String) (m : Match),
      m ∈ BsnDetector.detect text path → m.gdpr_category = .regular) := by
  refine ⟨?_, ?_, ?_⟩
  · intro a content m ctx c hA hc
    unfold applyContextLoop
    rw [hA]
    simp only
    rw [hc]
    exact ⟨_, rfl, rfl, rfl⟩
  · intro outs a content ml m houts hsf hm c kws hspec
    rcases scanFileMatches_mem outs a content ml m hsf hm with
      ⟨ms, hms, m0, hm0, happ⟩
    exact applyContextLoop_regular_special a content m0
      (houts ms hms m0 hm0) m happ c kws hspec
  · intro text path m h
    rcases detectLines_mem _ _ _ _ h with ⟨ln, off, line, se, hemit⟩
    rcases bsnEmit_some hemit with ⟨_, hm⟩
    subst hm
    rfl

/-- ContextInfo produced on the C2 witness content. -/
def c2WitnessCtx : ContextInfo :=
  { before := "dna ".data, after := [], keywords := ["dna", "dna"],
    category := some .genetic }

/-- A Regular detector match spanning the digits of the C2 witness
content. -/
def c2WitnessMatch : Match :=
  { detector_id := "nl_bsn"
    detector_name := "Dutch BSN (Burgerservicenummer)"
    country := "nl"
    value_masked := some "111****33".data
    location :=
      { file_path := "t", line := 1, column := 4, start_byte := 4, end_byte := 13 }
    confidence := .high
    severity := .critical
    context := none
    gdpr_category := .regular }

/-- Witness for C2: on a genetic-context text the analyzer fires and the
engine step upgrades the match. -/
theorem c2_context_upgrade_invariant_witness :
    (ContextAnalyzer.new.analyze "dna 111222333".data
        c2WitnessMatch.location.start_byte c2WitnessMatch.location.end_byte =
      some (some c2WitnessCtx) ∧ c2WitnessCtx.category = some .genetic) ∧
    (∃ m2, applyContextLoop ContextAnalyzer.new "dna 111222333".data
        c2WitnessMatch = some m2 ∧ m2.severity = .critical ∧
      m2.gdpr_category = .special .genetic c2WitnessCtx.keywords) :=
  ⟨⟨by decide, by decide⟩,
    c2_context_upgrade_invariant.1 ContextAnalyzer.new "dna 111222333".data
      c2WitnessMatch c2WitnessCtx .genetic (by decide) (by decide)⟩

/-- The match the NIR detector emits on the bare NIR text of the C9
counterexample: line 1, start_byte 0, but column 1. -/
def c9CxMatch : Match :=
  { detector_id := "fr_nir"
    detector_name := "French NIR (Numéro de Sécurité Sociale)"
    country := "fr"
    value_masked := some "189**********71".data
    location :=
      { file_path := "t", line := 1, column := 1, start_byte := 0, end_byte := 15 }
    confidence := .high
    severity := .critical
    context := none
    gdpr_category := .regular }

/-- Counterexample to claim C9: for a match on line 1 the byte offset of
the match start within its line equals start_byte, so a 0-indexed column
would have to equal start_byte; the NIR detector emits column
capture.start() + 1, here column 1 at start_byte 0. -/
theorem c9_claim_false :
    ¬ (∀ (text : List Char) (path : String) (m : Match),
        m ∈ NirDetector.detect text path → m.location.line = 1 →
        m.location.column = m.location.start_byte) := by
  intro h
  have h2 := h "189057512345671".data "t" c9CxMatch (by decide) (by decide)
  exact absurd h2 (by decide)

/-- Claim C9 as amended: every embedded detector reports 1-indexed
lines; the BSN and credit-card detectors report the 0-indexed byte
offset of the match start within the line as the column, while the NIR
detector (like the Codice Fiscale detector in the full source) reports
it 1-indexed as capture.start() + 1. -/
theorem c9_location_indexing_amended (path : String) (ln off : Nat)
    (line : List Char) (se : Nat × Nat) (m : Match) :
    (bsnEmit path ln off line se = some m →
      m.location.line = ln + 1 ∧ m.location.column = se.1 ∧
      m.location.start_byte = off + se.1 ∧ m.location.end_byte = off + se.2) ∧
    (ccEmit path ln off line se = some m →
      m.location.line = ln + 1 ∧ m.location.column = se.1 ∧
      m.location.start_byte = off + se.1 ∧ m.location.end_byte = off + se.2) ∧
    (nirEmit path ln off line se = some m →
      m.location.line = ln + 1 ∧ m.location.column = se.1 + 1 ∧
      m.location.start_byte = off + se.1 ∧ m.location.end_byte = off + se.2) := by
  refine ⟨?_, ?_, ?_⟩
  · intro h
    rcases bsnEmit_some h with ⟨_, hm⟩
    subst hm
    exact ⟨rfl, rfl, rfl, rfl⟩
  · intro h
    rcases ccEmit_some h with ⟨_, hm⟩
    subst hm
    exact ⟨rfl, rfl, rfl, rfl⟩
  · intro h
    rcases nirEmit_some h with ⟨_, hm⟩
    subst hm
    exact ⟨rfl, rfl, rfl, rfl⟩

/-- The match emitted on the C9 witness capture. -/
def c9WitnessMatch : Match :=
  { detector_id := "nl_bsn"
    detector_name := "Dutch BSN (Burgerservicenummer)"
    country := "nl"
    value_masked := some "111****33".data
    location :=
      { file_path := "test.txt", line := 1, column := 14,
        start_byte := 14, end_byte := 23 }
    confidence := .high
    severity := .critical
    context := none
    gdpr_category := .regular }

/-- Witness for the amended C9 theorem on a concrete BSN capture. -/
theorem c9_location_indexing_amended_witness :
    (bsnEmit "test.txt" 0 0 "Customer BSN: 111222333".data (14, 23) =
      some c9WitnessMatch) ∧
    c9WitnessMatch.location.column = 14 :=
  ⟨by decide,
    ((c9_location_indexing_amended "test.txt" 0 0 "Customer BSN: 111222333".data
      (14, 23) c9WitnessMatch).1 (by decide)).2.1⟩

/-- Range test on an optional parsed number. -/
def inRange (o : Option Nat) (lo hi : Nat) : Bool :=
  match o with
  | some n => lo ≤ n && n ≤ hi
  | none => false

/-- Card family as the claim words it (a spec-side reference definition,
deliberately not taken from the code): Visa for a leading 4, Mastercard
for numbers starting 51-55 or 2221-2720, American Express for 34 or 37. -/
def specCardFamily (digits : List Char) : Option String :=
  if digits.head? = some '4' then some "Visa"
  else if inRange (parseNatDigits (digits.take 2)) 51 55 ||
      inRange (parseNatDigits (digits.take 4)) 2221 2720 then some "Mastercard"
  else if "34".data.isPrefixOf digits || "37".data.isPrefixOf digits then
    some "American Express"
  else none

/-- The match the credit-card detector emits on the 2221-series card of
the C8 counterexample: the code names it Unknown, not Mastercard. -/
def c8CxMatch : Match :=
  { detector_id := "creditcard"
    detector_name := "Credit Card Number (Unknown)"
    country := "universal"
    value_masked := some "************0009".data
    location :=
      { file_path := "t", line := 1, column := 6, start_byte := 6, end_byte := 22 }
    confidence := .high
    severity := .high
    context := none
    gdpr_category := .regular }

/-- Counterexample to claim C8: on the Luhn-valid 2-series Mastercard
number 2221000000000009 (first four digits in 2221-2720) the detector
emits the family Unknown, so the emitted name does not carry the family
the claim requires. -/
theorem c8_claim_false :
    ¬ (∀ (path : String) (ln off : Nat) (line : List Char) (se : Nat × Nat)
        (m : Match) (fam : String),
        ccEmit path ln off line se = some m →
        specCardFamily (((line.drop se.1).take (se.2 - se.1)).filter Char.isDigit) =
          some fam →
        containsSub m.detector_name.data fam.data = true) := by
  intro h
  have h2 := h "t" 0 0 "Card: 2221000000000009".data (6, 22) c8CxMatch
    "Mastercard" (by decide) (by decide)
  exact absurd h2 (by decide)

theorem detect_card_type_visa (ds : List Char) (h : ds.head? = some '4') :
    detect_card_type ds = "Visa" := by
  simp [detect_card_type, h]

theorem detect_card_type_mc (ds : List Char) (c2 : Char) (h5 : ds.head? = some '5')
    (h2 : ds.tail.head? = some c2) (hge : '1' ≤ c2) (hle : c2 ≤ '5') :
    detect_card_type ds = "Mastercard" := by
  cases ds with
  | nil => simp at h5
  | cons a t =>
    simp at h5
    subst h5
    cases t with
    | nil => simp at h2
    | cons b t2 =>
      simp at h2
      subst h2
      simp [detect_card_type, List.getD, hge, hle]

theorem detect_card_type_amex (ds : List Char)
    (h : ("34".data.isPrefixOf ds || "37".data.isPrefixOf ds) = true) :
    detect_card_type ds = "American Express" := by
  cases ds with
  | nil => simp [List.isPrefixOf] at h
  | cons a t =>
    have ha : a = '3' := by
      rcases Bool.or_eq_true_iff.mp h with h1 | h1
      · rw [show ("34".data : List Char) = ['3', '4'] from rfl] at h1
        simp [List.isPrefixOf] at h1
        exact h1.1.symm
      · rw [show ("37".data : List Char) = ['3', '7'] from rfl] at h1
        simp [List.isPrefixOf] at h1
        exact h1.1.symm
    subst ha
    simp only [detect_card_type]
    rw [if_neg (by simp), if_neg (by simp), if_pos h]

theorem detect_card_type_2221 (ds : List Char)
    (h : "2221".data.isPrefixOf ds = true) :
    detect_card_type ds = "Unknown" := by
  cases ds with
  | nil => simp [List.isPrefixOf] at h
  | cons a t =>
    have ha : a = '2' := by
      rw [show ("2221".data : List Char) = ['2', '2', '2', '1'] from rfl] at h
      simp [List.isPrefixOf] at h
      exact h.1.symm
    subst ha
    simp [detect_card_type, List.isPrefixOf]

theorem dedupByKeyGo_chain (key : Match → Nat) (prev : Match) (l : List Match)
    (hsorted : l.Pairwise (fun a b => key a ≤ key b))
    (hlb : ∀ x ∈ l, key prev ≤ key x) :
    List.Chain' (fun a b => key a < key b) (prev :: dedupByKeyGo key prev l) := by
  induction l generalizing prev with
  | nil => simp [dedupByKeyGo]
  | cons b r ih =>
    obtain ⟨hb, hr⟩ := List.pairwise_cons.mp hsorted
    by_cases h : key b = key prev
    · rw [dedupByKeyGo, if_pos h]
      refine ih prev hr ?_
      intro x hx
      calc key prev = key b := h.symm
        _ ≤ key x := hb x hx
    · rw [dedupByKeyGo, if_neg h]
      have hpb : key prev < key b :=
        Nat.lt_of_le_of_ne (hlb b (by simp)) (fun e => h e.symm)
      rw [List.chain'_cons]
      exact ⟨hpb, ih b hr hb⟩

theorem dedupByKey_chain (key : Match → Nat) (l : List Match)
    (hs : l.Pairwise (fun a b => key a ≤ key b)) :
    List.Chain' (fun a b => key a < key b) (dedupByKey key l) := by
  cases l with
  | nil => simp [dedupByKey]
  | cons a r =>
    obtain ⟨ha, hr⟩ := List.pairwise_cons.mp hs
    rw [dedupByKey]
    exact dedupByKeyGo_chain key a r hr ha

/-- Claim C8 as amended: each emitted credit-card match is named after
detect_card_type of the captured digits, which yields Visa for a leading
4, Mastercard for 51-55, American Express for 34 or 37, but Unknown for
the 2221-2720 Mastercard range; and the emitted matches are sorted by
start_byte with duplicates by start_byte removed (strictly increasing
start bytes). -/
theorem c8_creditcard_amended :
    (∀ (path : String) (ln off : Nat) (line : List Char) (se : Nat × Nat)
        (m : Match),
      ccEmit path ln off line se = some m →
      m.detector_name = "Credit Card Number (" ++
        detect_card_type
          (((line.drop se.1).take (se.2 - se.1)).filter Char.isDigit) ++ ")" ∧
      (∀ ds, ds = ((line.drop se.1).take (se.2 - se.1)).filter Char.isDigit →
        (ds.head? = some '4' →
          containsSub m.detector_name.data "Visa".data = true) ∧
        (∀ c2, ds.head? = some '5' → ds.tail.head? = some c2 →
          '1' ≤ c2 → c2 ≤ '5' →
          containsSub m.detector_name.data "Mastercard".data = true) ∧
        (("34".data.isPrefixOf ds || "37".data.isPrefixOf ds) = true →
          containsSub m.detector_name.data "American Express".data = true) ∧
        ("2221".data.isPrefixOf ds = true →
          containsSub m.detector_name.data "Mastercard".data = false))) ∧
    (∀ (text : List Char) (path : String),
      List.Chain' (fun a b => a.location.start_byte < b.location.start_byte)
        (CreditCardDetector.detect text path)) := by
  constructor
  · intro path ln off line se m hemit
    rcases ccEmit_some hemit with ⟨_, hm⟩
    subst hm
    refine ⟨rfl, ?_⟩
    intro ds hds
    subst hds
    refine ⟨?_, ?_, ?_, ?_⟩
    · intro h4
      simp only [detect_card_type_visa _ h4]
      decide
    · intro c2 h5 h2 hge hle
      simp only [detect_card_type_mc _ c2 h5 h2 hge hle]
      decide
    · intro h34
      simp only [detect_card_type_amex _ h34]
      decide
    · intro h2221
      simp only [detect_card_type_2221 _ h2221]
      decide
  · intro text path
    unfold CreditCardDetector.detect
    apply dedupByKey_chain
    have hs := @List.sorted_mergeSort Match
      (fun a b : Match =>
        decide (a.location.start_byte ≤ b.location.start_byte))
      (fun a b c hab hbc => by
        simp only [decide_eq_true_eq] at *
        omega)
      (fun a b => by
        simp only [Bool.or_eq_true, decide_eq_true_eq]
        omega)
    refine List.Pairwise.imp ?_ (hs _)
    intro a b h
    simpa using h

/-- The match emitted on the C8 witness capture (a Visa test number). -/
def c8WitnessMatch : Match :=
  { detector_id := "creditcard"
    detector_name := "Credit Card Number (Visa)"
    country := "universal"
    value_masked := some "************0366".data
    location :=
      { file_path := "t", line := 1, column := 14,
        start_byte := 14, end_byte := 30 }
    confidence := .high
    severity := .high
    context := none
    gdpr_category := .regular }

/-- Witness for the amended C8 theorem on a concrete Visa capture. -/
theorem c8_creditcard_amended_witness :
    (ccEmit "t" 0 0 "Payment card: 4532015112830366".data (14, 30) =
      some c8WitnessMatch) ∧
    c8WitnessMatch.detector_name = "Credit Card Number (" ++
      detect_card_type
        ((("Payment card: 4532015112830366".data.drop 14).take 16).filter
          Char.isDigit) ++ ")" :=
  ⟨by decide,
    (c8_creditcard_amended.1 "t" 0 0 "Payment card: 4532015112830366".data
      (14, 30) c8WitnessMatch (by decide)).1⟩

end Pii
